import Mathlib

/-!
# hklpy: a verification model of the diffractometer calculation core

A shallow embedding, modelled from the specification, of the calculation core
of the `hklpy` repository (whose implementation — `hkl.calc` and the underlying
`libhkl` engine — is not part of the source tree; only its test-suite is):
the crystal lattice and its Busing–Levy `B` matrix, the `UB` computation from
two reference reflections, the E6C geometry's forward/inverse kinematics, axis
constraints with their inversion semantics, and energy/wavelength conversion.

Numerical facts about the concrete scenarios of the test-suite are certified
with scaled-integer interval arithmetic (including verified enclosures of `π`
and of sines and cosines), reproducing the repository's reference `UB` matrix
to better than `5·10⁻⁷` per entry.
-/

set_option maxRecDepth 10000

namespace Hklpy

/-! ### Scaled-integer interval arithmetic

All interval endpoints are integers at the fixed scale `SC = 10^40`:
an interval `⟨lo, hi⟩` encloses the real `x` when `lo ≤ x * SC ≤ hi`. -/
def SC : ℤ := 10 ^ 40

/-- Ceiling division on `ℤ` (round toward `+∞`), from floor division. -/
def cdiv (a b : ℤ) : ℤ := -((-a).fdiv b)

/-- A closed interval with scaled integer endpoints. -/
structure Iv where
  lo : ℤ
  hi : ℤ
  deriving DecidableEq, Repr

/-- `x` is enclosed by `I` (at scale `SC`). -/
def Iv.mem (I : Iv) (x : ℝ) : Prop := (I.lo : ℝ) ≤ x * SC ∧ x * SC ≤ (I.hi : ℝ)

/-- Subset test, used to replace a computed interval by a literal one. -/
def Iv.subset (I J : Iv) : Bool := decide (J.lo ≤ I.lo) && decide (I.hi ≤ J.hi)

/-! #### Exact operations -/
def Iv.add (I J : Iv) : Iv := ⟨I.lo + J.lo, I.hi + J.hi⟩

def Iv.neg (I : Iv) : Iv := ⟨-I.hi, -I.lo⟩

def Iv.sub (I J : Iv) : Iv := I.add J.neg

def min4 (a b c d : ℤ) : ℤ := min (min a b) (min c d)

def max4 (a b c d : ℤ) : ℤ := max (max a b) (max c d)

def Iv.mul (I J : Iv) : Iv :=
  ⟨(min4 (I.lo * J.lo) (I.lo * J.hi) (I.hi * J.lo) (I.hi * J.hi)).fdiv SC,
   cdiv (max4 (I.lo * J.lo) (I.lo * J.hi) (I.hi * J.lo) (I.hi * J.hi)) SC⟩

/-! #### Constants, halving, doubling -/
/-- Interval for the rational constant `n / d` (`d > 0`). -/
def Iv.ofRat (n d : ℤ) : Iv := ⟨(n * SC).fdiv d, cdiv (n * SC) d⟩

/-- Exact integer constant. -/
def Iv.ofInt (n : ℤ) : Iv := ⟨n * SC, n * SC⟩

def Iv.half (I : Iv) : Iv := ⟨I.lo.fdiv 2, cdiv I.hi 2⟩

def Iv.double (I : Iv) : Iv := ⟨2 * I.lo, 2 * I.hi⟩

/-! #### Reciprocal and division (positive denominator) -/
def Iv.recip (I : Iv) : Iv := ⟨(SC * SC).fdiv I.hi, cdiv (SC * SC) I.lo⟩

def Iv.div (I J : Iv) : Iv := I.mul J.recip

/-! #### Square root via certificate

`rl` and `rh` are externally computed scaled-integer approximations of the root;
the definition checks them by squaring and falls back to a trivially sound
enclosure if the check fails. -/
def Iv.sqrtC (I : Iv) (rl rh : ℤ) : Iv :=
  if 0 ≤ rl ∧ rl * rl ≤ max I.lo 0 * SC ∧ 0 ≤ rh ∧ I.hi * SC ≤ rh * rh then ⟨rl, rh⟩
  else ⟨0, max SC I.hi⟩

/-! #### Division of an interval by a positive integer constant -/
def Iv.divP (I : Iv) (d : ℤ) : Iv := ⟨I.lo.fdiv d, cdiv I.hi d⟩

/-- Widen both endpoints by `r` (a scaled error allowance). -/
def Iv.widen (I : Iv) (r : ℤ) : Iv := ⟨I.lo - r, I.hi + r⟩

/-! #### Sine and cosine

Small-argument enclosures come from the cubic Taylor bounds
(`Real.sin_bound`, `Real.cos_bound`, valid for `|x| ≤ 1`); general arguments
are reduced by `k` halvings and rebuilt with the double-angle formulas. -/
/-- Scaled bound on `|x|` over the interval. -/
def Iv.absB (I : Iv) : ℤ := max (-I.lo) I.hi

/-- Scaled over-approximation of `(u/SC)^4 * (5/96) * SC`, i.e. of the Taylor
remainder allowance, where `u = I.absB`. -/
def Iv.rem4 (I : Iv) : ℤ :=
  let u := max I.absB 0
  let r1 := cdiv (u * u) SC
  let r2 := cdiv (r1 * u) SC
  let r3 := cdiv (r2 * u) SC
  cdiv (5 * r3) 96 + 1

/-- Whether the interval certainly lies in `[-1, 1]`. -/
def Iv.inUnit (I : Iv) : Bool := decide (-SC ≤ I.lo) && decide (I.hi ≤ SC)

/-- Cubic Taylor enclosure of `sin` for `|x| ≤ 1` (fallback `[-1, 1]`). -/
def Iv.sinSmall (I : Iv) : Iv :=
  if I.inUnit then ((I.sub (((I.mul I).mul I).divP 6)).widen I.rem4)
  else ⟨-SC, SC⟩

/-- Quadratic Taylor enclosure of `cos` for `|x| ≤ 1` (fallback `[-1, 1]`). -/
def Iv.cosSmall (I : Iv) : Iv :=
  if I.inUnit then (((Iv.ofInt 1).sub ((I.mul I).divP 2)).widen I.rem4)
  else ⟨-SC, SC⟩

/-- Enclosures of `sin x` and `cos x`, reducing the argument by `k` halvings. -/
def Iv.sinCos (I : Iv) : ℕ → Iv × Iv
  | 0 => (I.sinSmall, I.cosSmall)
  | k + 1 =>
    let p := (I.half).sinCos k
    ((p.1.mul p.2).double, ((p.2.mul p.2).double).sub (Iv.ofInt 1))

/-! #### An enclosure of `π` -/
def piIv : Iv := ⟨31415926535897740000000000000000000000000, 31415926535898320000000000000000000000000⟩

/-! ### Real-valued 3-vectors and 3×3 matrices -/
structure V3 where
  x : ℝ
  y : ℝ
  z : ℝ

/-- A 3×3 matrix, stored as rows. -/
structure M3 where
  r1 : V3
  r2 : V3
  r3 : V3

def V3.add (u v : V3) : V3 := ⟨u.x + v.x, u.y + v.y, u.z + v.z⟩

def V3.sub (u v : V3) : V3 := ⟨u.x - v.x, u.y - v.y, u.z - v.z⟩

def V3.smul (a : ℝ) (v : V3) : V3 := ⟨a * v.x, a * v.y, a * v.z⟩

def V3.dot (u v : V3) : ℝ := u.x * v.x + u.y * v.y + u.z * v.z

def V3.cross (u v : V3) : V3 :=
  ⟨u.y * v.z - u.z * v.y, u.z * v.x - u.x * v.z, u.x * v.y - u.y * v.x⟩

def V3.normSq (v : V3) : ℝ := v.dot v

noncomputable def V3.norm (v : V3) : ℝ := Real.sqrt v.normSq

noncomputable def V3.unit (v : V3) : V3 := V3.smul v.norm⁻¹ v

def V3.zero : V3 := ⟨0, 0, 0⟩

def M3.matvec (M : M3) (v : V3) : V3 := ⟨M.r1.dot v, M.r2.dot v, M.r3.dot v⟩

def M3.transpose (M : M3) : M3 :=
  ⟨⟨M.r1.x, M.r2.x, M.r3.x⟩, ⟨M.r1.y, M.r2.y, M.r3.y⟩, ⟨M.r1.z, M.r2.z, M.r3.z⟩⟩

def M3.mul (A B : M3) : M3 :=
  let Bt := B.transpose
  ⟨⟨A.r1.dot Bt.r1, A.r1.dot Bt.r2, A.r1.dot Bt.r3⟩,
   ⟨A.r2.dot Bt.r1, A.r2.dot Bt.r2, A.r2.dot Bt.r3⟩,
   ⟨A.r3.dot Bt.r1, A.r3.dot Bt.r2, A.r3.dot Bt.r3⟩⟩

/-- Matrix with the given columns. -/
def M3.ofCols (c1 c2 c3 : V3) : M3 :=
  ⟨⟨c1.x, c2.x, c3.x⟩, ⟨c1.y, c2.y, c3.y⟩, ⟨c1.z, c2.z, c3.z⟩⟩

def M3.id : M3 := ⟨⟨1, 0, 0⟩, ⟨0, 1, 0⟩, ⟨0, 0, 1⟩⟩

def M3.det (M : M3) : ℝ := M.r1.dot (M.r2.cross M.r3)

/-- Inverse by the adjugate formula (junk when `det = 0`). -/
noncomputable def M3.inv (M : M3) : M3 :=
  let d := M.det
  let Mt := M.transpose
  ⟨V3.smul d⁻¹ (Mt.r2.cross Mt.r3),
   V3.smul d⁻¹ (Mt.r3.cross Mt.r1),
   V3.smul d⁻¹ (Mt.r1.cross Mt.r2)⟩

/-! ### Spec-modelled diffractometer geometry (E6C)

Modelled from the spec: the implementation (`hkl.calc`, `hkl.geometries` and the
underlying `libhkl` engine) is not part of the source tree, only its tests are.
The data model and operations below follow §3–§4 of the spec: angles are in
degrees, the six canonical physical axes of the 6-circle geometry are
`mu, omega, chi, phi` (sample) and `gamma, delta` (detector), the beam travels
along `+x`, and the sample rotation axes are `z, -y, x, -y` with the detector
rotations `z, -y` — the convention validated by reproducing the repository's
reference UB matrix to 8 decimals. -/
/-- Reciprocal-space (pseudo) coordinates. -/
structure Pseudo where
  h : ℝ
  k : ℝ
  l : ℝ

/-- Physical-axis position in canonical axis names, angles in degrees. -/
structure Position where
  mu : ℝ
  omega : ℝ
  chi : ℝ
  phi : ℝ
  gamma : ℝ
  delta : ℝ

/-- Crystal unit cell: lengths in the wavelength's unit, angles in degrees. -/
structure Lattice where
  a : ℝ
  b : ℝ
  c : ℝ
  alpha : ℝ
  beta : ℝ
  gamma : ℝ

/-- Degrees to radians. -/
noncomputable def rad (θ : ℝ) : ℝ := θ * Real.pi / 180

noncomputable def sind (θ : ℝ) : ℝ := Real.sin (rad θ)

noncomputable def cosd (θ : ℝ) : ℝ := Real.cos (rad θ)

/-- Rotation about the `z` axis by `θ` degrees. -/
noncomputable def rotZ (θ : ℝ) : M3 :=
  ⟨⟨cosd θ, -sind θ, 0⟩, ⟨sind θ, cosd θ, 0⟩, ⟨0, 0, 1⟩⟩

/-- Rotation about the `-y` axis by `θ` degrees. -/
noncomputable def rotMY (θ : ℝ) : M3 :=
  ⟨⟨cosd θ, 0, -sind θ⟩, ⟨0, 1, 0⟩, ⟨sind θ, 0, cosd θ⟩⟩

/-- Rotation about the `x` axis by `θ` degrees. -/
noncomputable def rotX (θ : ℝ) : M3 :=
  ⟨⟨1, 0, 0⟩, ⟨0, cosd θ, -sind θ⟩, ⟨0, sind θ, cosd θ⟩⟩

/-- Combined sample rotation `R = Rz(mu)·R₋y(omega)·Rx(chi)·R₋y(phi)`. -/
noncomputable def sampleRot (p : Position) : M3 :=
  ((rotZ p.mu).mul (rotMY p.omega)).mul ((rotX p.chi).mul (rotMY p.phi))

/-- Magnitude of the wave vector, `2π/λ`. -/
noncomputable def kvec (lam : ℝ) : ℝ := 2 * Real.pi / lam

/-- Direction of the scattered beam for detector angles `gamma, delta`. -/
noncomputable def kfDir (p : Position) : V3 :=
  ((rotZ p.gamma).mul (rotMY p.delta)).matvec ⟨1, 0, 0⟩

/-- Scattering vector in the laboratory frame, `k·(k_f - k_i)`. -/
noncomputable def qLab (lam : ℝ) (p : Position) : V3 :=
  V3.smul (kvec lam) ((kfDir p).sub ⟨1, 0, 0⟩)

/-- Scattering vector rotated back into the crystal (φ) frame. -/
noncomputable def uPhi (lam : ℝ) (p : Position) : V3 :=
  (sampleRot p).transpose.matvec (qLab lam p)

/-- Busing–Levy `B` matrix of a lattice (includes the `2π` factor). -/
noncomputable def Bmat (lat : Lattice) : M3 :=
  let ca := cosd lat.alpha
  let cb := cosd lat.beta
  let cg := cosd lat.gamma
  let sa := sind lat.alpha
  let sb := sind lat.beta
  let sg := sind lat.gamma
  let vol := lat.a * lat.b * lat.c *
    Real.sqrt (1 - ca * ca - cb * cb - cg * cg + 2 * (ca * cb * cg))
  let tau := 2 * Real.pi
  let astar := tau * lat.b * lat.c * sa / vol
  let bstar := tau * lat.a * lat.c * sb / vol
  let cosgstar := (ca * cb - cg) / (sa * sb)
  let cosbstar := (ca * cg - cb) / (sa * sg)
  let singstar := Real.sqrt (1 - cosgstar * cosgstar)
  let sinbstar := Real.sqrt (1 - cosbstar * cosbstar)
  let cstar := tau * lat.a * lat.b * sg / vol
  ⟨⟨astar, bstar * cosgstar, cstar * cosbstar⟩,
   ⟨0, bstar * singstar, -(cstar * sinbstar * ca)⟩,
   ⟨0, 0, tau / lat.c⟩⟩

/-- Orthonormal triad built from two (independent) vectors, as columns
`(t₁ˆ, t₃ˆ×t₁ˆ, t₃ˆ)` with `t₃ = t₁×t₂`  (Busing–Levy's `TRIPLE`). -/
noncomputable def triad (t1 t2 : V3) : M3 :=
  let e1 := t1.unit
  let e3 := (t1.cross t2).unit
  let e2 := e3.cross e1
  M3.ofCols e1 e2 e3

/-! ### Sample, reflections, UB computation

Modelled from the spec (§3 Sample/Reflection, §4.2): reflections are owned by a
sample, appended in insertion order with the wavelength current at the time of
the call, and referenced by index for UB computation. -/
/-- A reference reflection: (h,k,l), the observed position (canonical axis
names), the wavelength at which it was added, and the orientation flag. -/
structure Reflection where
  h : ℝ
  k : ℝ
  l : ℝ
  position : Position
  wavelength : ℝ
  flag : ℤ

structure Sample where
  name : String
  lattice : Lattice
  reflections : List Reflection

/-- Append a reflection observed at `pos`, using the engine's current
wavelength; returns the updated sample and the new reflection's index. -/
def Sample.add_reflection (s : Sample) (h k l : ℝ) (pos : Position) (lam : ℝ) :
    Sample × ℕ :=
  ({ s with reflections := s.reflections ++ [⟨h, k, l, pos, lam, 1⟩] },
   s.reflections.length)

/-- The Busing–Levy UB computation from two reference reflections. Fails (with
a degeneracy error, modelled as `none`) if the reciprocal vectors of the two
reflections are parallel or zero. -/
noncomputable def compute_UB_core (lat : Lattice) (refl1 refl2 : Reflection) :
    Option M3 := by
  classical
  exact
    let B := Bmat lat
    let t1 := B.matvec ⟨refl1.h, refl1.k, refl1.l⟩
    let t2 := B.matvec ⟨refl2.h, refl2.k, refl2.l⟩
    if t1.cross t2 = V3.zero then none
    else
      let Tc := triad t1 t2
      let u1 := uPhi refl1.wavelength refl1.position
      let u2 := uPhi refl2.wavelength refl2.position
      let Tphi := triad u1 u2
      some ((Tphi.mul Tc.transpose).mul B)

/-- `computeUB(i, j)` on a sample: look up the two reflections by index and run
the Busing–Levy computation on them. -/
noncomputable def Sample.compute_UB (s : Sample) (i j : ℕ) : Option M3 :=
  match s.reflections.get? i, s.reflections.get? j with
  | some refl1, some refl2 => compute_UB_core s.lattice refl1 refl2
  | _, _ => none

/-- One inspection snapshot of a reflection, with canonical axis names. -/
structure ReflectionDetail where
  reflection : Pseudo
  wavelength : ℝ
  position : Position
  flag : ℤ
  orientation_reflection : Bool

/-- `reflections_details`: one read-only snapshot per reflection, in insertion
order, with the position expressed in canonical axis names. -/
def Sample.reflections_details (s : Sample) : List ReflectionDetail :=
  s.reflections.map fun r =>
    { reflection := ⟨r.h, r.k, r.l⟩
      wavelength := r.wavelength
      position := r.position
      flag := r.flag
      orientation_reflection := decide (r.flag = (1 : ℤ)) }

/-! ### Axis constraints

Modelled from the spec (§3 AxisConstraint, §4.5): a per-axis limit pair held in
an internal (non-inverted) representation, a value, a fit flag and an inverted
flag.  While inverted, reading the limits returns the negated-and-swapped pair,
and writing converts back to the internal representation. -/
structure AxisConstraint where
  ilow : ℝ
  ihigh : ℝ
  value : ℝ
  fit : Bool
  inverted : Bool

/-- The externally visible limit pair. -/
def AxisConstraint.limits (c : AxisConstraint) : ℝ × ℝ :=
  if c.inverted then (-c.ihigh, -c.ilow) else (c.ilow, c.ihigh)

/-- Write the externally visible limit pair. -/
def AxisConstraint.setLimits (c : AxisConstraint) (p : ℝ × ℝ) : AxisConstraint :=
  if c.inverted then { c with ilow := -p.2, ihigh := -p.1 }
  else { c with ilow := p.1, ihigh := p.2 }

def AxisConstraint.setValue (c : AxisConstraint) (v : ℝ) : AxisConstraint :=
  { c with value := v }

def AxisConstraint.setFit (c : AxisConstraint) (f : Bool) : AxisConstraint :=
  { c with fit := f }

/-- Toggle the inverted flag. -/
def AxisConstraint.toggleInverted (c : AxisConstraint) : AxisConstraint :=
  { c with inverted := !c.inverted }

/-- The set of per-axis constraints of the 6-circle engine. -/
structure Constraints where
  mu : AxisConstraint
  omega : AxisConstraint
  chi : AxisConstraint
  phi : AxisConstraint
  gamma : AxisConstraint
  delta : AxisConstraint

/-- A single axis value is admissible for its constraint. -/
def axisOk (c : AxisConstraint) (v : ℝ) : Prop :=
  (c.limits.1 ≤ v ∧ v ≤ c.limits.2) ∧ (c.fit = false → v = c.value)

/-- A position satisfies every axis's hard limits, and every non-fit axis is
pinned to its constrained value (spec §4.3). -/
def inLimits (cs : Constraints) (p : Position) : Prop :=
  axisOk cs.mu p.mu ∧ axisOk cs.omega p.omega ∧ axisOk cs.chi p.chi ∧
    axisOk cs.phi p.phi ∧ axisOk cs.gamma p.gamma ∧ axisOk cs.delta p.delta

/-! ### The calculation engine

Modelled from the spec (§3 Engine, §4.3–4.4, §9): the engine owns the active
sample's `UB`, the wavelength, the mode, the constraint set, and the
last-known-good pseudo/physical position, updated only on success. -/
structure UnreachableError where
  pseudo : Pseudo
  physical : Position

structure Engine where
  UB : M3
  wavelength : ℝ
  mode : String
  constraints : Constraints
  pseudo : Pseudo
  physical : Position

/-- Inverse kinematics: `(h,k,l) = UB⁻¹ · u_φ(position)`.  A pure function of
UB, the wavelength and the given angles (spec §4.4). -/
noncomputable def inverse (UB : M3) (lam : ℝ) (p : Position) : Pseudo :=
  let v := UB.inv.matvec (uPhi lam p)
  ⟨v.x, v.y, v.z⟩

/-- The solution set of `forward` (spec §9: pure `solveCandidates`): positions
that solve the diffraction condition for the target and satisfy the
constraints. -/
def candidates (e : Engine) (t : Pseudo) (p : Position) : Prop :=
  inverse e.UB e.wavelength p = t ∧ inLimits e.constraints p

/-- Deterministic selection of one candidate (spec §9: `selectPreferred`). -/
noncomputable def choosePos (P : Position → Prop) : Option Position := by
  classical
  exact if h : ∃ p, P p then some h.choose else none

/-- `forward` invoked as a move: on success the engine's last-known-good
positions are updated; on failure the state is unchanged and the error carries
the last reachable pseudo/physical position (spec §4.3, §7). -/
noncomputable def move (e : Engine) (t : Pseudo) :
    Engine × Except UnreachableError Position :=
  match choosePos (candidates e t) with
  | some p => ({ e with pseudo := t, physical := p }, .ok p)
  | none => (e, .error ⟨e.pseudo, e.physical⟩)

/-- Reading `(h,k,l)` from a position mutates nothing: the engine is returned
unchanged alongside the computed value (spec §4.4). -/
noncomputable def inverseOp (e : Engine) (p : Position) : Engine × Pseudo :=
  (e, inverse e.UB e.wavelength p)

/-! ### Energy/wavelength conversion (spec §4.6)

`A_KEV` is the product `h·c` in keV·Å, as in `hkl.calc`. -/
noncomputable def A_KEV : ℝ := 12.39842

noncomputable def energyOf (wavelength : ℝ) : ℝ := A_KEV / wavelength

noncomputable def wavelengthOf (energy : ℝ) : ℝ := A_KEV / energy

/-- eV → keV is a pure scale factor. -/
noncomputable def eV_to_keV (e : ℝ) : ℝ := e / 1000

/-- Defaults of a freshly constructed `CalcE6C` engine: mode
`bissector_vertical`, wavelength 1.54 Å (as asserted by the repository's
tests). -/
noncomputable def CalcE6C : Engine :=
  { UB := M3.id
    wavelength := 1.54
    mode := "bissector_vertical"
    constraints :=
      let free : AxisConstraint := ⟨-180, 180, 0, true, false⟩
      ⟨free, free, free, free, free, free⟩
    pseudo := ⟨0, 0, 0⟩
    physical := ⟨0, 0, 0, 0, 0, 0⟩ }

/-- Reading the reflection snapshots as a stateful operation: the sample comes
back untouched. -/
def Sample.reflections_details_op (s : Sample) : Sample × List ReflectionDetail :=
  (s, s.reflections_details)

/-- The snapshot of one reflection. -/
def Reflection.detail (r : Reflection) : ReflectionDetail :=
  { reflection := ⟨r.h, r.k, r.l⟩
    wavelength := r.wavelength
    position := r.position
    flag := r.flag
    orientation_reflection := decide (r.flag = (1 : ℤ)) }

/-! ### Interval vectors and matrices -/
structure IvV3 where
  x : Iv
  y : Iv
  z : Iv
  deriving DecidableEq

structure IvM3 where
  r1 : IvV3
  r2 : IvV3
  r3 : IvV3
  deriving DecidableEq

def IvV3.mem (V : IvV3) (v : V3) : Prop := V.x.mem v.x ∧ V.y.mem v.y ∧ V.z.mem v.z

def IvM3.mem (M : IvM3) (m : M3) : Prop := M.r1.mem m.r1 ∧ M.r2.mem m.r2 ∧ M.r3.mem m.r3

def IvV3.subset (V W : IvV3) : Bool := V.x.subset W.x && V.y.subset W.y && V.z.subset W.z

def IvM3.subset (M N : IvM3) : Bool := M.r1.subset N.r1 && M.r2.subset N.r2 && M.r3.subset N.r3

def IvV3.add (U V : IvV3) : IvV3 := ⟨U.x.add V.x, U.y.add V.y, U.z.add V.z⟩

def IvV3.sub (U V : IvV3) : IvV3 := ⟨U.x.sub V.x, U.y.sub V.y, U.z.sub V.z⟩

def IvV3.smul (a : Iv) (V : IvV3) : IvV3 := ⟨a.mul V.x, a.mul V.y, a.mul V.z⟩

def IvV3.dot (U V : IvV3) : Iv := ((U.x.mul V.x).add (U.y.mul V.y)).add (U.z.mul V.z)

def IvV3.cross (U V : IvV3) : IvV3 :=
  ⟨(U.y.mul V.z).sub (U.z.mul V.y), (U.z.mul V.x).sub (U.x.mul V.z),
   (U.x.mul V.y).sub (U.y.mul V.x)⟩

def IvV3.normSq (V : IvV3) : Iv := V.dot V

def IvM3.matvec (M : IvM3) (v : IvV3) : IvV3 := ⟨M.r1.dot v, M.r2.dot v, M.r3.dot v⟩

def IvM3.transpose (M : IvM3) : IvM3 :=
  ⟨⟨M.r1.x, M.r2.x, M.r3.x⟩, ⟨M.r1.y, M.r2.y, M.r3.y⟩, ⟨M.r1.z, M.r2.z, M.r3.z⟩⟩

def IvM3.mul (A B : IvM3) : IvM3 :=
  let Bt := B.transpose
  ⟨⟨A.r1.dot Bt.r1, A.r1.dot Bt.r2, A.r1.dot Bt.r3⟩,
   ⟨A.r2.dot Bt.r1, A.r2.dot Bt.r2, A.r2.dot Bt.r3⟩,
   ⟨A.r3.dot Bt.r1, A.r3.dot Bt.r2, A.r3.dot Bt.r3⟩⟩

def IvM3.ofCols (c1 c2 c3 : IvV3) : IvM3 :=
  ⟨⟨c1.x, c2.x, c3.x⟩, ⟨c1.y, c2.y, c3.y⟩, ⟨c1.z, c2.z, c3.z⟩⟩

/-! #### Norm, unit vector and triad with square-root certificates -/
/-- Enclosure of the Euclidean norm; `rl, rh` certify the square root. -/
def IvV3.normC (V : IvV3) (rl rh : ℤ) : Iv := V.normSq.sqrtC rl rh

/-- Enclosure of the unit vector `v/‖v‖`. -/
def IvV3.unitC (V : IvV3) (rl rh : ℤ) : IvV3 :=
  IvV3.smul (V.normC rl rh).recip V

/-- Enclosure of the Busing–Levy triad; two sqrt certificates. -/
def triadC (T1 T2 : IvV3) (n1l n1h n3l n3h : ℤ) : IvM3 :=
  let e1 := T1.unitC n1l n1h
  let e3 := (T1.cross T2).unitC n3l n3h
  let e2 := e3.cross e1
  IvM3.ofCols e1 e2 e3

/-! ### Interval mirror of the geometry -/
def Iv.zero : Iv := ⟨0, 0⟩

def Iv.one : Iv := ⟨SC, SC⟩

def rotZIv (S C : Iv) : IvM3 :=
  ⟨⟨C, S.neg, Iv.zero⟩, ⟨S, C, Iv.zero⟩, ⟨Iv.zero, Iv.zero, Iv.one⟩⟩

def rotMYIv (S C : Iv) : IvM3 :=
  ⟨⟨C, Iv.zero, S.neg⟩, ⟨Iv.zero, Iv.one, Iv.zero⟩, ⟨S, Iv.zero, C⟩⟩

def rotXIv (S C : Iv) : IvM3 :=
  ⟨⟨Iv.one, Iv.zero, Iv.zero⟩, ⟨Iv.zero, C, S.neg⟩, ⟨Iv.zero, S, C⟩⟩

/-- Interval enclosure of `uPhi`, from trig enclosures of the six axis angles
and an enclosure of `k = 2π/λ`. -/
def uPhiIv (Smu Cmu Som Com Sch Cch Sph Cph Sg Cg Sd Cd KV : Iv) : IvV3 :=
  let R := ((rotZIv Smu Cmu).mul (rotMYIv Som Com)).mul
    ((rotXIv Sch Cch).mul (rotMYIv Sph Cph))
  let e1 : IvV3 := ⟨Iv.one, Iv.zero, Iv.zero⟩
  let KF := ((rotZIv Sg Cg).mul (rotMYIv Sd Cd)).matvec e1
  R.transpose.matvec (IvV3.smul KV (KF.sub e1))

/-- Interval enclosure of the cell volume factor of `Bmat`. -/
def volIv (Aq Bq Cq CA CB CG : Iv) (v1l v1h : ℤ) : Iv :=
  ((Aq.mul Bq).mul Cq).mul
    (((((Iv.one.sub (CA.mul CA)).sub (CB.mul CB)).sub (CG.mul CG)).add
      ((CA.mul CB).mul CG).double).sqrtC v1l v1h)

/-- Interval enclosure of the Busing–Levy `B` matrix. -/
def BmatIv (Aq Bq Cq CA CB CG SA SB SG : Iv) (v1l v1h sgl sgh sbl sbh : ℤ) : IvM3 :=
  let tau := piIv.double
  let vol := volIv Aq Bq Cq CA CB CG v1l v1h
  let astar := (((tau.mul Bq).mul Cq).mul SA).div vol
  let bstar := (((tau.mul Aq).mul Cq).mul SB).div vol
  let cosgstar := ((CA.mul CB).sub CG).div (SA.mul SB)
  let cosbstar := ((CA.mul CG).sub CB).div (SA.mul SG)
  let singstar := (Iv.one.sub (cosgstar.mul cosgstar)).sqrtC sgl sgh
  let sinbstar := (Iv.one.sub (cosbstar.mul cosbstar)).sqrtC sbl sbh
  let cstar := (((tau.mul Aq).mul Bq).mul SG).div vol
  ⟨⟨astar, bstar.mul cosgstar, cstar.mul cosbstar⟩,
   ⟨Iv.zero, bstar.mul singstar, ((cstar.mul sinbstar).mul CA).neg⟩,
   ⟨Iv.zero, Iv.zero, tau.div Cq⟩⟩

/-- Interval enclosure of `k = 2π/λ`. -/
def kvecIv (LAM : Iv) : Iv := piIv.double.div LAM

/-- Angle in degrees as a rational `n/d`: enclosure of its sine and cosine. -/
def sinCosDegIv (n d : ℤ) (k : ℕ) : Iv × Iv :=
  ((Iv.ofRat n (180 * d)).mul piIv).sinCos k

def IvM3.detIv (M : IvM3) : Iv := M.r1.dot (M.r2.cross M.r3)

/-! ### The concrete scenarios from the repository's tests -/
/-- Hexagonal lattice of `sample1` (`test_sample1_calc_only`). -/
noncomputable def lattice1 : Lattice := ⟨9.069, 9.069, 10.390, 90, 90, 120⟩

noncomputable def pos330 : Position := ⟨25.285, 0, 0, 0, 64.449, -0.871⟩

noncomputable def pos520 : Position := ⟨46.816, 0, 0, 0, 79.712, -1.374⟩

noncomputable def sample1 : Sample :=
  ⟨"sample1", lattice1,
   [⟨3, 3, 0, pos330, 1.61198, 1⟩, ⟨5, 2, 0, pos520, 1.61198, 1⟩]⟩

/-- KCF lattice (`kcf_sample` fixture). -/
noncomputable def latticeKCF : Lattice := ⟨0.5857, 0.5857, 0.7849, 90, 90, 90⟩

noncomputable def posKCF1 : Position :=
  ⟨48.42718305024724, 0, 0, 0, 115.65436271083637, 3.0000034909999993⟩

noncomputable def posKCF2 : Position :=
  ⟨138.42718305024724, 0, 0, 0, 115.65436271083637, 3.0000034909999993⟩

/-- The KCF sample; its two reflections were added at the engine's default
wavelength 1.54 Å (the UB computation is invariant under that common factor). -/
noncomputable def kcfSample : Sample :=
  ⟨"KCF", latticeKCF,
   [⟨0, 0, 1, posKCF1, 1.54, 1⟩, ⟨1, 1, 0, posKCF2, 1.54, 1⟩]⟩

def ivS0 : Iv := ⟨-3145726, 3145726⟩

def ivC0 : Iv := ⟨9999999999999999999999999998900488372224, 10000000000000000000000000001832519379626⟩

def ivS90 : Iv := ⟨9999999999997711545801518627643710115404, 10000000000000418380675276177941064467672⟩

def ivC90 : Iv := ⟨-3498500385507210655631780570, 463380390853212411779585024⟩

def ivS120 : Iv := ⟨8660254037836941638354612804585809299274, 8660254037845405566507075099241867805796⟩

def ivC120 : Iv := ⟨-5000000000007007666175194034726279410390, -4999999999999135162646925704477590533966⟩

def ivSmu330 : Iv := ⟨4271211604865486015883133547071694594454, 4271211604865575241227069993102549384206⟩

def ivCmu330 : Iv := ⟨9041944007040804489376830816939648364196, 9041944007040874066310659390148183270296⟩

def ivSg330 : Iv := ⟨9022017211954097784909348911840504886638, 9022017211954841254934437165901688229372⟩

def ivCg330 : Iv := ⟨4313143334875788685580601625866274336472, 4313143334877192548077047116551853588964⟩

def ivSd330 : Iv := ⟨-152012322802872503542854313403920717268, -152012322802869696878949132387311921716⟩

def ivCd330 : Iv := ⟨9998844545932098612879011436867720504856, 9998844545932098655592707801889419325378⟩

def ivSmu520 : Iv := ⟨7291597606098087773265315729943955882178, 7291597606098361293737830100736713471016⟩

def ivCmu520 : Iv := ⟨6843435127970208149682024811350072269964, 6843435127970694992944016830639500314030⟩

def ivSg520 : Iv := ⟨9839224646024815672626883280193452669524, 9839224646026481714374878164085134359286⟩

def ivCg520 : Iv := ⟨1785961467955653313316221097667394206076, 1785961467958416145219482132478391869996⟩

def ivSd520 : Iv := ⟨-239785255067908725358907251553322316308, -239785255067904297598760745964328184248⟩

def ivCd520 : Iv := ⟨9997124738216084595165747358506872524788, 9997124738216084701639960592067848006738⟩

def ivSmuK1 : Iv := ⟨7481129953146351538324176755421070017766, 7481129953146650959378089681816023615078⟩

def ivCmuK1 : Iv := ⟨6635713573092767489824910418287216743656, 6635713573093312180521939809598363130872⟩

def ivSmuK2 : Iv := ⟨6635713573080586841529223744140343230596, 6635713573094830338686651406345298047682⟩

def ivCmuK2 : Iv := ⟨-7481129953154711446475616671877340792070, -7481129953145549769366280361765849310178⟩

def ivSgK1 : Iv := ⟨9014221539920690317156183492023733719574, 9014221539928037622855535061485539142476⟩

def ivCgK1 : Iv := ⟨-4329412203656565512020584962871289744612, -4329412203649205732735575025686560308792⟩

def ivSdK1 : Iv := ⟨523360170888859037197334118653749766730, 523360170888868708414654671644209107780⟩

def ivCdK1 : Iv := ⟨9986295315657712614340407817454026593538, 9986295315657713127373320468123103848886⟩

def ivSgK2 : Iv := ⟨9014221539920690317156183492023733719574, 9014221539928037622855535061485539142476⟩

def ivCgK2 : Iv := ⟨-4329412203656565512020584962871289744612, -4329412203649205732735575025686560308792⟩

def ivSdK2 : Iv := ⟨523360170888859037197334118653749766730, 523360170888868708414654671644209107780⟩

def ivCdK2 : Iv := ⟨9986295315657712614340407817454026593538, 9986295315657713127373320468123103848886⟩

def ivB1 : IvM3 :=
  ⟨⟨⟨7999997195870270536947340099663613477975, 7999997195876782366899451768198331449652⟩, ⟨3999998597934108694410820602536264270636, 3999998597945828077141923685869030786780⟩, ⟨-485358455243485750095979275, 3664433748808357619807754612⟩⟩,
   ⟨⟨0, 0⟩, ⟨6928200801823634259345774778003527937537, 6928200801834160054896084342436300058938⟩, ⟨-280221834787851491507782720, 2115661811298763463813618542⟩⟩,
   ⟨⟨0, 0⟩, ⟨0, 0⟩, ⟨6047339082944704523580365736284889316646, 6047339082944816169393647738209817131860⟩⟩⟩

def ivBk : IvM3 :=
  ⟨⟨⟨107276511988699165474140254335390475362537, 107276511988730183990629528295737928104075⟩, ⟨-4970983205474726250499069915, 37530691854874453001064954756⟩, ⟨-3709395927438587291269340361, 28005766619187115712477696523⟩⟩,
   ⟨⟨0, 0⟩, ⟨107276511988699165474140247770333479227597, 107276511988730183990629529165287261139946⟩, ⟨-3709395927435591802424332042, 28005766619164499911106067359⟩⟩,
   ⟨⟨0, 0⟩, ⟨0, 0⟩, ⟨80050774712441686839087781883042425786722, 80050774712443164734361065103834883424644⟩⟩⟩

def ivT330 : IvV3 := ⟨⟨35999987381413137694074482106599633245833, 35999987381467831332124126362202086709296⟩, ⟨20784602405470902778037324334010583812611, 20784602405502480164688253027308900176814⟩, ⟨0, 0⟩⟩

def ivT520 : IvV3 := ⟨⟨47999983175219570073558341703390595931147, 47999983175275567988781106212729718821820⟩, ⟨13856401603647268518691549556007055875074, 13856401603668320109792168684872600117876⟩, ⟨0, 0⟩⟩

def ivTk001 : IvV3 := ⟨⟨-3709395927438587291269340361, 28005766619187115712477696523⟩, ⟨-3709395927435591802424332042, 28005766619164499911106067359⟩, ⟨80050774712441686839087781883042425786722, 80050774712443164734361065103834883424644⟩⟩

def ivTk110 : IvV3 := ⟨⟨107276511988694194490934779609139976292622, 107276511988767714682484402748738993058831⟩, ⟨107276511988699165474140247770333479227597, 107276511988730183990629529165287261139946⟩, ⟨0, 0⟩⟩

def ivTc1 : IvM3 :=
  ⟨⟨⟨8660254037832385781419051331439103706953, 8660254037858700279518466250198600850633⟩, ⟨4999999999948348831583420570320761244490, 5000000000047644717244404701880520107148⟩, ⟨0, 0⟩⟩,
   ⟨⟨4999999999990400433133029597473111122732, 5000000000005593115694314231962880472428⟩, ⟨-8660254037931535789942904009076254700350, -8660254037759550270995447455891868536520⟩, ⟨0, 0⟩⟩,
   ⟨⟨0, 0⟩, ⟨0, 0⟩, ⟨-10000000000084103203100086860046239030803, -9999999999915896796900620474830924466285⟩⟩⟩

def ivTck : IvM3 :=
  ⟨⟨⟨-463380390853614552243910210, 3498500385510246797422069183⟩, ⟨7071067811861605019026195848556461454432, 7071067811870418545955661356342700960793⟩, ⟨-7071067811867814186743238733549387976899, -7071067811862063224308681351681269820414⟩⟩,
   ⟨⟨-463380390853240353636118005, 3498500385507421615348207984⟩, ⟨7071067811861932678442836790345450832217, 7071067811867944732609082652637421627792⟩, ⟨7071067811861735564892040403843041008296, 7071067811870288000089817391583191113210⟩⟩,
   ⟨⟨9999999999999815380266012179737884964321, 10000000000000184619733986761833712516730⟩, ⟨-4947626693156596799650056635, 655318833282994183369360114⟩, ⟨-2801472763219252633296921438, 2801472763220234908291231160⟩⟩⟩

def ivU330 : IvV3 := ⟨⟨-5025929913963869696577249648745932584771, -5025929913956569487559824728076304080303⟩, ⟨41261802199063622707357663432501638295189, 41261802199069783985092555170740584531892⟩, ⟨-592514543074517496258528612527916795486, -592514543074495617439401601903541598780⟩⟩

def ivU520 : IvV3 := ⟨⟨6044438719647593546618345846088988535322, 6044438719663223354660277167360550915955⟩, ⟨49584747505999274564324206412422958731721, 49584747506015225519444321477899421785969⟩, ⟨-934636404621032623518098920952379431820, -934636404620998109735617675640920292399⟩⟩

def ivUk1 : IvV3 := ⟨⟨-11302536505993194242340658379313577672581, -11302536505945392471747638251199291831210⟩, ⟨68090807144634041245807042746398152646956, 68090807144681348586054150330560418676468⟩, ⟨2135304503955750976931953931961665556444, 2135304503955829857341300782980721970831⟩⟩

def ivUk2 : IvV3 := ⟨⟨68090807144584619216993031804425102462528, 68090807144734029617014169523701231506037⟩, ⟨11302536505844604998588560284566879938153, 11302536506005011006345687329844902458020⟩, ⟨2135304503955750976931953931961664979021, 2135304503955829857341300782980722548254⟩⟩

def ivTphi1 : IvM3 :=
  ⟨⟨⟨-1208999277367770011515644639342281240417, -1208999277365810397431851906400571631853⟩, ⟨9924938655058570128146898301330329784991, 9924938655106478835010574077301521937653⟩, ⟨-184156021284700632487407366218873535597, -184156021283930171770885033406927201968⟩⟩,
   ⟨⟨9925623694622415921483922177365477050898, 9925623694625568982054469198316930615703⟩, ⟨1206002875974087284555472818257530802142, 1206002875981508155872084985768896325281⟩, ⟨-165985950767416302156464088966848375542, -165985950766713455565100670785619040532⟩⟩,
   ⟨⟨-142530768767130040475281445852860510162, -142530768767100782821657512881540192697⟩, ⟨-202854026290240377177841459049909867708, -202854026289300080411729020034278082007⟩, ⟨-9996926288836152053284998292184031163958, -9996926288791070642315655755993627203026⟩⟩⟩

def ivTphik : IvM3 :=
  ⟨⟨⟨-1636731787430351739099796184513082837246, -1636731787422138420319333795162328741964⟩, ⟨9861868375851540405161883022327674457217, 9861868375931345973553915510651410537991⟩, ⟨254285651620975118827128386314590995889, 254285651622758713157457922535831011142⟩⟩,
   ⟨⟨9860298918409123526997210394994062122358, 9860298918423752206647572036385024496084⟩, ⟨1627304675920000793840421641147568757913, 1627304675939076940271791568376833181052⟩, ⟨355506302578094643471824211285943716718, 355506302580165730860322972407838304688⟩⟩,
   ⟨⟨309215613292788813925413692898164662112, 309215613293044153852499704716056794027⟩, ⟨308920100170374057478066340959190397742, 308920100173135691251900462673965203906⟩, ⟨-9990443137161911234772700209372831993474, -9990443137095870893645162232171652422743⟩⟩⟩

def ivUB1 : IvM3 :=
  ⟨⟨⟨3132355094153378607387330601872987602565, 3132355094257834968880410355443953888858⟩, ⟨-4807593046885999945874227354847657838778, -4807593046671817233967262448091210488439⟩, ⟨111365390483917763527079579153941109554, 111365390490087961629157533165231303684⟩⟩,
   ⟨⟨7359072385258226809494700303148244773941, 7359072385299844894935311016547191681938⟩, ⟨6394270422644102751978806132461278445127, 6394270422707184027391994910180269078675⟩, ⟨100377332727727701490684754195205299979, 100377332734599128758139326198124046180⟩⟩,
   ⟨⟨-179889760721486824091774204767104054147, -179889760719032553736880232964553753098⟩, ⟨-17606596573677459061006566478612018453, -17606596569008665603070873344377666296⟩, ⟨6045480305501430400557925100151308691759, 6045480305630611450415802493907028446451⟩⟩⟩

def ivUBk : IvM3 :=
  ⟨⟨⟨72879230599937079565196660130499318876938, 72879230600678822213287121762789660077805⟩, ⟨76737046488647762952286965790231987596369, 76737046489390621070330204316526926440365⟩, ⟨-13102164758073194844390509936955863829437, -13102164757917115463737046369198188528925⟩⟩,
   ⟨⟨9647347265973090446999830870616698765284, 9647347266195781389156674759575948355988⟩, ⟨15040800863842621359162577294509430579011, 15040800864066871793945141774084922204657⟩, ⟨78932456731480564820045651295382340313197, 78932456731618232376127059193649996208532⟩⟩,
   ⟨⟨78126797337737247620226380519460052433365, 78126797338347611907810369540228152271708⟩, ⟨-73440111860120042223753950676875108007999, -73440111859450984067613499084385595849478⟩, ⟨2475294939681504998657326420697471437755, 2475294939774689976983597643108802122140⟩⟩⟩

/-- The UB matrix of `sample1` as the model computes it. -/
noncomputable def UB1e : M3 :=
  ((triad (uPhi 1.61198 pos330) (uPhi 1.61198 pos520)).mul
    (triad ((Bmat lattice1).matvec ⟨3, 3, 0⟩)
      ((Bmat lattice1).matvec ⟨5, 2, 0⟩)).transpose).mul (Bmat lattice1)

/-- The UB matrix of the KCF sample as the model computes it. -/
noncomputable def UBkcf_e : M3 :=
  ((triad (uPhi 1.54 posKCF1) (uPhi 1.54 posKCF2)).mul
    (triad ((Bmat latticeKCF).matvec ⟨0, 0, 1⟩)
      ((Bmat latticeKCF).matvec ⟨1, 1, 0⟩)).transpose).mul (Bmat latticeKCF)

/-- The engine after the KCF setup: UB from the two reference reflections, the
measurement wavelength, and all axes at their initial zero positions. -/
noncomputable def tardisKCF : Engine :=
  { UB := UBkcf_e
    wavelength := 1.3317314715359827
    mode := "lifting_detector_mu"
    constraints := CalcE6C.constraints
    pseudo := ⟨0, 0, 0⟩
    physical := ⟨0, 0, 0, 0, 0, 0⟩ }

theorem SC_pos : (0 : ℤ) < SC := by norm_num [SC]

theorem SC_pos_real : (0 : ℝ) < (SC : ℤ) := by exact_mod_cast SC_pos

/-- Floor division under-approximates real division (positive divisor). -/
theorem fdiv_le_real (a : ℤ) {b : ℤ} (hb : 0 < b) : (↑(a.fdiv b) : ℝ) * b ≤ a := by
  have h1 : a.fdiv b * b ≤ a := by
    rw [Int.fdiv_eq_ediv _ (le_of_lt hb)]
    have h2 : 0 ≤ a % b := Int.emod_nonneg a (ne_of_gt hb)
    have h3 : a % b = a - b * (a / b) := Int.emod_def a b
    have : b * (a / b) ≤ a := by omega
    linarith [this, mul_comm (a / b) b]
  exact_mod_cast h1

/-- Ceiling division over-approximates real division (positive divisor). -/
theorem real_le_cdiv (a : ℤ) {b : ℤ} (hb : 0 < b) : (a : ℝ) ≤ (↑(cdiv a b) : ℝ) * b := by
  have h1 : a ≤ cdiv a b * b := by
    have h := fdiv_le_real (-a) hb
    have h' : (-a).fdiv b * b ≤ -a := by exact_mod_cast h
    unfold cdiv
    linarith [h', mul_comm ((-a).fdiv b) b]
  exact_mod_cast h1

theorem Iv.mem_of_subset {I J : Iv} {x : ℝ} (h : I.mem x) (hlo : J.lo ≤ I.lo)
    (hhi : I.hi ≤ J.hi) : J.mem x := by
  obtain ⟨h1, h2⟩ := h
  have hlo' : (J.lo : ℝ) ≤ I.lo := by exact_mod_cast hlo
  have hhi' : (I.hi : ℝ) ≤ J.hi := by exact_mod_cast hhi
  exact ⟨le_trans hlo' h1, le_trans h2 hhi'⟩

theorem Iv.mem_of_subset_eq {I J : Iv} {x : ℝ} (h : I.mem x) (hs : I.subset J = true) :
    J.mem x := by
  unfold Iv.subset at hs
  simp only [Bool.and_eq_true, decide_eq_true_eq] at hs
  exact Iv.mem_of_subset h hs.1 hs.2

theorem Iv.add_mem {I J : Iv} {x y : ℝ} (hx : I.mem x) (hy : J.mem y) :
    (I.add J).mem (x + y) := by
  obtain ⟨h1, h2⟩ := hx; obtain ⟨h3, h4⟩ := hy
  have e : (x + y) * (SC : ℝ) = x * SC + y * SC := by ring
  constructor <;> · simp only [Iv.add]; push_cast; linarith

theorem Iv.neg_mem {I : Iv} {x : ℝ} (hx : I.mem x) : I.neg.mem (-x) := by
  obtain ⟨h1, h2⟩ := hx
  constructor <;> · simp only [Iv.neg]; push_cast; nlinarith

theorem Iv.sub_mem {I J : Iv} {x y : ℝ} (hx : I.mem x) (hy : J.mem y) :
    (I.sub J).mem (x - y) := by
  have := Iv.add_mem hx (Iv.neg_mem hy)
  simpa [Iv.sub, sub_eq_add_neg] using this

/-! #### Multiplication -/
private theorem mul_bounds_right {a b c x : ℝ} (h1 : a ≤ x) (h2 : x ≤ b) :
    min (a * c) (b * c) ≤ x * c ∧ x * c ≤ max (a * c) (b * c) := by
  rcases le_total 0 c with hc | hc
  · constructor
    · exact le_trans (min_le_left _ _) (mul_le_mul_of_nonneg_right h1 hc)
    · exact le_trans (mul_le_mul_of_nonneg_right h2 hc) (le_max_right _ _)
  · constructor
    · exact le_trans (min_le_right _ _) (mul_le_mul_of_nonpos_right h2 hc)
    · exact le_trans (mul_le_mul_of_nonpos_right h1 hc) (le_max_left _ _)

theorem mul_mem_box {xl xu yl yu x y : ℝ} (hx1 : xl ≤ x) (hx2 : x ≤ xu)
    (hy1 : yl ≤ y) (hy2 : y ≤ yu) :
    min (min (xl * yl) (xl * yu)) (min (xu * yl) (xu * yu)) ≤ x * y ∧
      x * y ≤ max (max (xl * yl) (xl * yu)) (max (xu * yl) (xu * yu)) := by
  obtain ⟨hA, hB⟩ := @mul_bounds_right xl xu y x hx1 hx2
  obtain ⟨hC, hD⟩ := @mul_bounds_right yl yu xl y hy1 hy2
  obtain ⟨hE, hF⟩ := @mul_bounds_right yl yu xu y hy1 hy2
  constructor
  · refine le_trans ?_ hA
    have h1 : min (xl * yl) (xl * yu) ≤ xl * y := by
      simpa [mul_comm] using hC
    have h2 : min (xu * yl) (xu * yu) ≤ xu * y := by
      simpa [mul_comm] using hE
    exact le_trans (min_le_min h1 h2) (le_refl _)
  · refine le_trans hB ?_
    have h1 : xl * y ≤ max (xl * yl) (xl * yu) := by
      simpa [mul_comm] using hD
    have h2 : xu * y ≤ max (xu * yl) (xu * yu) := by
      simpa [mul_comm] using hF
    exact max_le_max h1 h2

theorem Iv.mul_mem {I J : Iv} {x y : ℝ} (hx : I.mem x) (hy : J.mem y) :
    (I.mul J).mem (x * y) := by
  obtain ⟨h1, h2⟩ := hx; obtain ⟨h3, h4⟩ := hy
  obtain ⟨hlo, hhi⟩ := mul_mem_box h1 h2 h3 h4
  have e : x * SC * (y * SC) = x * y * SC * SC := by ring
  rw [e] at hlo hhi
  set m : ℤ := min4 (I.lo * J.lo) (I.lo * J.hi) (I.hi * J.lo) (I.hi * J.hi) with hm
  set M : ℤ := max4 (I.lo * J.lo) (I.lo * J.hi) (I.hi * J.lo) (I.hi * J.hi) with hM
  have hm' : (m : ℝ) ≤ x * y * SC * SC := by
    refine le_trans (le_of_eq ?_) hlo
    simp only [hm, min4]
    push_cast
    rfl
  have hM' : x * y * SC * SC ≤ (M : ℝ) := by
    refine le_trans hhi (le_of_eq ?_)
    simp only [hM, max4]
    push_cast
    rfl
  constructor
  · have hd := fdiv_le_real m SC_pos
    have key : (↑(m.fdiv SC) : ℝ) * SC ≤ x * y * SC * SC := le_trans hd hm'
    have goal : (↑(m.fdiv SC) : ℝ) ≤ x * y * SC := by
      have := SC_pos_real
      nlinarith
    simpa [Iv.mul, ← hm] using goal
  · have hd := real_le_cdiv M SC_pos
    have key : x * y * SC * SC ≤ (↑(cdiv M SC) : ℝ) * SC := le_trans hM' hd
    have goal : x * y * SC ≤ (↑(cdiv M SC) : ℝ) := by
      have := SC_pos_real
      nlinarith
    simpa [Iv.mul, ← hM] using goal

theorem Iv.ofRat_mem {n d : ℤ} (hd : 0 < d) : (Iv.ofRat n d).mem ((n : ℝ) / d) := by
  have hd' : (0 : ℝ) < (d : ℝ) := by exact_mod_cast hd
  have e : (n : ℝ) / d * SC * d = (n : ℝ) * SC := by field_simp
  constructor
  · have h := fdiv_le_real (n * SC) hd
    have h' : (↑((n * SC).fdiv d) : ℝ) * d ≤ (n : ℝ) * SC := by push_cast at h ⊢; linarith
    simp only [Iv.ofRat]
    nlinarith
  · have h := real_le_cdiv (n * SC) hd
    have h' : (n : ℝ) * SC ≤ (↑(cdiv (n * SC) d) : ℝ) * d := by push_cast at h ⊢; linarith
    simp only [Iv.ofRat]
    nlinarith

theorem Iv.ofInt_mem (n : ℤ) : (Iv.ofInt n).mem (n : ℝ) := by
  constructor <;> · simp only [Iv.ofInt]; push_cast; linarith

theorem Iv.half_mem {I : Iv} {x : ℝ} (hx : I.mem x) : I.half.mem (x / 2) := by
  obtain ⟨h1, h2⟩ := hx
  have e : x / 2 * (SC : ℝ) * 2 = x * SC := by ring
  constructor
  · have h := fdiv_le_real I.lo (by norm_num : (0:ℤ) < 2)
    simp only [Iv.half]
    push_cast at h ⊢
    nlinarith
  · have h := real_le_cdiv I.hi (by norm_num : (0:ℤ) < 2)
    simp only [Iv.half]
    push_cast at h ⊢
    nlinarith

theorem Iv.double_mem {I : Iv} {x : ℝ} (hx : I.mem x) : I.double.mem (2 * x) := by
  obtain ⟨h1, h2⟩ := hx
  have e : 2 * x * (SC : ℝ) = 2 * (x * SC) := by ring
  constructor <;> · simp only [Iv.double]; push_cast; linarith

theorem Iv.recip_mem {I : Iv} {x : ℝ} (hpos : 0 < I.lo) (hx : I.mem x) :
    I.recip.mem x⁻¹ := by
  obtain ⟨h1, h2⟩ := hx
  have hlo : (0 : ℝ) < I.lo := by exact_mod_cast hpos
  have hxSC : (0 : ℝ) < x * SC := lt_of_lt_of_le hlo h1
  have hx0 : (0 : ℝ) < x := by
    by_contra h
    push_neg at h
    nlinarith [SC_pos_real]
  have hhi : (0 : ℝ) < I.hi := lt_of_lt_of_le hxSC h2
  have hhiZ : (0 : ℤ) < I.hi := by exact_mod_cast hhi
  have einv : x⁻¹ * (SC : ℝ) = (SC * SC) / (x * SC) := by field_simp; ring
  constructor
  · have h := fdiv_le_real (SC * SC) hhiZ
    have key : (↑((SC * SC).fdiv I.hi) : ℝ) * I.hi ≤ SC * SC := by push_cast at h ⊢; linarith
    have hF : (0 : ℝ) ≤ (↑((SC * SC).fdiv I.hi) : ℝ) := by
      have : (0 : ℤ) ≤ (SC * SC).fdiv I.hi :=
        Int.fdiv_nonneg (mul_nonneg (le_of_lt SC_pos) (le_of_lt SC_pos)) (le_of_lt hhiZ)
      exact_mod_cast this
    have step : (↑((SC * SC).fdiv I.hi) : ℝ) * (x * SC) ≤ SC * SC :=
      le_trans (mul_le_mul_of_nonneg_left h2 hF) key
    simp only [Iv.recip]
    rw [einv, le_div_iff₀ hxSC]
    exact step
  · have h := real_le_cdiv (SC * SC) hpos
    have key : (SC : ℝ) * SC ≤ (↑(cdiv (SC * SC) I.lo) : ℝ) * I.lo := by push_cast at h ⊢; linarith
    have hC : (0 : ℝ) < (↑(cdiv (SC * SC) I.lo) : ℝ) := by nlinarith [SC_pos_real]
    have step : (SC : ℝ) * SC ≤ (↑(cdiv (SC * SC) I.lo) : ℝ) * (x * SC) :=
      le_trans key (mul_le_mul_of_nonneg_left h1 (le_of_lt hC))
    simp only [Iv.recip]
    rw [einv, div_le_iff₀ hxSC]
    exact step

theorem Iv.div_mem {I J : Iv} {x y : ℝ} (hpos : 0 < J.lo) (hx : I.mem x) (hy : J.mem y) :
    (I.div J).mem (x / y) := by
  have := Iv.mul_mem hx (Iv.recip_mem hpos hy)
  simpa [Iv.div, div_eq_mul_inv] using this

theorem Iv.sqrtC_mem {I : Iv} {x : ℝ} (rl rh : ℤ) (hx : I.mem x) :
    (I.sqrtC rl rh).mem (Real.sqrt x) := by
  obtain ⟨h1, h2⟩ := hx
  have hs := Real.sqrt_nonneg x
  have hSC := SC_pos_real
  unfold Iv.sqrtC
  split
  case isTrue h =>
    obtain ⟨ha, hb, hc, hd⟩ := h
    have ha' : (0 : ℝ) ≤ (rl : ℝ) := by exact_mod_cast ha
    have hc' : (0 : ℝ) ≤ (rh : ℝ) := by exact_mod_cast hc
    constructor
    · -- lower bound: (rl/SC)^2 ≤ max lo 0 / SC ≤ max x 0 so rl/SC ≤ √x
      have hb' : (rl : ℝ) * rl ≤ (max I.lo 0 : ℤ) * SC := by exact_mod_cast hb
      have hmax : ((max I.lo 0 : ℤ) : ℝ) ≤ max (x * SC) 0 := by
        push_cast
        exact max_le_max h1 (le_refl 0)
      have hkey : (rl : ℝ) * rl ≤ max x 0 * SC * SC := by
        have : max (x * SC) 0 = max x 0 * SC := by
          rcases le_total 0 x with h | h
          · rw [max_eq_left (by nlinarith), max_eq_left h]
          · rw [max_eq_right (by nlinarith), max_eq_right h]; ring
        nlinarith [hmax]
      have hsq : ((rl : ℝ) / SC) ^ 2 ≤ max x 0 := by
        rw [div_pow]
        rw [div_le_iff₀ (by positivity)]
        ring_nf
        ring_nf at hkey
        nlinarith
      have : (rl : ℝ) / SC ≤ Real.sqrt (max x 0) := Real.le_sqrt_of_sq_le hsq
      have hmx : Real.sqrt (max x 0) = Real.sqrt x := by
        rcases le_total 0 x with h | h
        · rw [max_eq_left h]
        · rw [max_eq_right h, Real.sqrt_eq_zero_of_nonpos h]
          exact Real.sqrt_eq_zero_of_nonpos le_rfl
      rw [hmx] at this
      rw [div_le_iff₀ hSC] at this
      linarith [this]
    · -- upper bound: x ≤ hi/SC ≤ (rh/SC)^2 so √x ≤ rh/SC
      have hd' : (I.hi : ℝ) * SC ≤ (rh : ℝ) * rh := by exact_mod_cast hd
      have hxs : x ≤ ((rh : ℝ) / SC) ^ 2 := by
        rw [div_pow, le_div_iff₀ (by positivity)]
        nlinarith
      have := Real.sqrt_le_sqrt hxs
      rw [Real.sqrt_sq (by positivity)] at this
      rw [le_div_iff₀ hSC] at this
      linarith
  case isFalse h =>
    constructor
    · push_cast; positivity
    · -- √x * SC ≤ max SC I.hi
      push_cast
      rcases le_total x 1 with hx1 | hx1
      · have : Real.sqrt x ≤ 1 := by
          rcases le_total x 0 with h0 | h0
          · rw [Real.sqrt_eq_zero_of_nonpos h0]; norm_num
          · calc Real.sqrt x ≤ Real.sqrt 1 := Real.sqrt_le_sqrt hx1
              _ = 1 := Real.sqrt_one
        have : Real.sqrt x * SC ≤ 1 * SC := by nlinarith
        calc Real.sqrt x * (SC : ℝ) ≤ 1 * SC := this
          _ = (SC : ℝ) := by ring
          _ ≤ max (SC : ℝ) I.hi := le_max_left _ _
      · have hsx : Real.sqrt x ≤ x := by
          nlinarith [Real.sq_sqrt (by linarith : (0:ℝ) ≤ x), Real.sqrt_nonneg x]
        calc Real.sqrt x * (SC : ℝ) ≤ x * SC := by nlinarith
          _ ≤ (I.hi : ℝ) := h2
          _ ≤ max (SC : ℝ) I.hi := le_max_right _ _

theorem Iv.divP_mem {I : Iv} {x : ℝ} {d : ℤ} (hd : 0 < d) (hx : I.mem x) :
    (I.divP d).mem (x / d) := by
  obtain ⟨h1, h2⟩ := hx
  have hd' : (0 : ℝ) < (d : ℝ) := by exact_mod_cast hd
  have e : x / d * (SC : ℝ) * d = x * SC := by field_simp
  constructor
  · have h := fdiv_le_real I.lo hd
    simp only [Iv.divP]
    nlinarith
  · have h := real_le_cdiv I.hi hd
    simp only [Iv.divP]
    nlinarith

theorem Iv.widen_mem {I : Iv} {x y : ℝ} {r : ℤ} (hx : I.mem x)
    (herr : |y - x| * SC ≤ (r : ℝ)) : (I.widen r).mem y := by
  obtain ⟨h1, h2⟩ := hx
  have hSC := SC_pos_real
  have hya : (y - x) * SC ≤ |y - x| * SC := by
    have := le_abs_self (y - x)
    nlinarith
  have hyb : -(|y - x| * SC) ≤ (y - x) * SC := by
    have := neg_abs_le (y - x)
    nlinarith
  have e : y * (SC : ℝ) = x * SC + (y - x) * SC := by ring
  constructor
  · simp only [Iv.widen]
    push_cast
    linarith
  · simp only [Iv.widen]
    push_cast
    linarith

theorem Iv.absB_spec {I : Iv} {x : ℝ} (hx : I.mem x) : |x| * SC ≤ (I.absB : ℝ) := by
  obtain ⟨h1, h2⟩ := hx
  have hSC := SC_pos_real
  rcases abs_cases x with ⟨he, _⟩ | ⟨he, hneg⟩
  · rw [he]
    calc x * SC ≤ (I.hi : ℝ) := h2
      _ ≤ ((max (-I.lo) I.hi : ℤ) : ℝ) := by exact_mod_cast le_max_right _ _
  · rw [he]
    have : (-x) * SC = -(x * SC) := by ring
    calc (-x) * SC = -(x * SC) := by ring
      _ ≤ (-I.lo : ℤ) := by push_cast; linarith
      _ ≤ ((max (-I.lo) I.hi : ℤ) : ℝ) := by exact_mod_cast le_max_left _ _

theorem Iv.rem4_spec {I : Iv} {x : ℝ} (hx : I.mem x) :
    |x| ^ 4 * (5 / 96) * SC ≤ (I.rem4 : ℝ) := by
  have hb := Iv.absB_spec hx
  have hSC := SC_pos_real
  have habs : (0 : ℝ) ≤ |x| := abs_nonneg x
  set u : ℤ := max I.absB 0 with hu
  have hu0 : (0 : ℤ) ≤ u := le_max_right _ _
  have hu0' : (0 : ℝ) ≤ (u : ℝ) := by exact_mod_cast hu0
  have hxu : |x| * SC ≤ (u : ℝ) := le_trans hb (by exact_mod_cast le_max_left I.absB 0)
  set r1 : ℤ := cdiv (u * u) SC with hr1
  set r2 : ℤ := cdiv (r1 * u) SC with hr2
  set r3 : ℤ := cdiv (r2 * u) SC with hr3
  have h1 : (u : ℝ) * u ≤ (r1 : ℝ) * SC := by
    have := real_le_cdiv (u * u) SC_pos
    push_cast at this ⊢; linarith
  have hr10 : (0 : ℝ) ≤ (r1 : ℝ) := by nlinarith
  have h2 : (r1 : ℝ) * u ≤ (r2 : ℝ) * SC := by
    have := real_le_cdiv (r1 * u) SC_pos
    push_cast at this ⊢; linarith
  have hr20 : (0 : ℝ) ≤ (r2 : ℝ) := by nlinarith
  have h3 : (r2 : ℝ) * u ≤ (r3 : ℝ) * SC := by
    have := real_le_cdiv (r2 * u) SC_pos
    push_cast at this ⊢; linarith
  have hr30 : (0 : ℝ) ≤ (r3 : ℝ) := by nlinarith
  -- |x|^2 * SC ≤ r1, by: (|x| SC)^2 ≤ u^2 ≤ r1 SC, divide by SC
  have habsSC : (0 : ℝ) ≤ |x| * SC := by positivity
  have sq1 : (|x| * SC) * (|x| * SC) ≤ (u : ℝ) * u := mul_le_mul hxu hxu habsSC hu0'
  have k1 : |x| ^ 2 * SC ≤ (r1 : ℝ) := by nlinarith
  have sq2 : (|x| ^ 2 * SC) * (|x| * SC) ≤ (r1 : ℝ) * u := by
    refine mul_le_mul k1 hxu habsSC hr10
  have k2 : |x| ^ 3 * SC ≤ (r2 : ℝ) := by nlinarith
  have sq3 : (|x| ^ 3 * SC) * (|x| * SC) ≤ (r2 : ℝ) * u := by
    refine mul_le_mul k2 hxu habsSC hr20
  have k3 : |x| ^ 4 * SC ≤ (r3 : ℝ) := by nlinarith
  have h5 : (5 : ℝ) * r3 ≤ (cdiv (5 * r3) 96 : ℝ) * 96 := by
    have := real_le_cdiv (5 * r3) (by norm_num : (0:ℤ) < 96)
    push_cast at this ⊢; linarith
  have : |x| ^ 4 * (5 / 96) * SC ≤ (5 : ℝ) * r3 / 96 := by nlinarith
  calc |x| ^ 4 * (5 / 96) * SC ≤ (5 : ℝ) * r3 / 96 := this
    _ ≤ (cdiv (5 * r3) 96 : ℝ) := by nlinarith
    _ ≤ ((cdiv (5 * r3) 96 + 1 : ℤ) : ℝ) := by push_cast; linarith
    _ = (I.rem4 : ℝ) := by rw [Iv.rem4]

theorem Iv.inUnit_spec {I : Iv} {x : ℝ} (hx : I.mem x) (h : I.inUnit = true) : |x| ≤ 1 := by
  obtain ⟨h1, h2⟩ := hx
  unfold Iv.inUnit at h
  simp only [Bool.and_eq_true, decide_eq_true_eq] at h
  obtain ⟨ha, hb⟩ := h
  have ha' : ((-SC : ℤ) : ℝ) ≤ I.lo := by exact_mod_cast ha
  have hb' : (I.hi : ℝ) ≤ (SC : ℝ) := by exact_mod_cast hb
  have hSC := SC_pos_real
  rw [abs_le]
  constructor <;> · push_cast at ha' ⊢; nlinarith

theorem Iv.sinSmall_mem {I : Iv} {x : ℝ} (hx : I.mem x) : I.sinSmall.mem (Real.sin x) := by
  unfold Iv.sinSmall
  split
  case isTrue h =>
    have hu := Iv.inUnit_spec hx h
    have hb := Real.sin_bound hu
    have hpoly : ((I.sub (((I.mul I).mul I).divP 6))).mem (x - x * x * x / 6) :=
      Iv.sub_mem hx (Iv.divP_mem (by norm_num) (Iv.mul_mem (Iv.mul_mem hx hx) hx))
    refine Iv.widen_mem hpoly ?_
    have e : x ^ 3 = x * x * x := by ring
    rw [← e]
    have h1 : |Real.sin x - (x - x ^ 3 / 6)| ≤ |x| ^ 4 * (5 / 96) := hb
    have h2 := Iv.rem4_spec hx
    have hSC := SC_pos_real
    nlinarith
  case isFalse h =>
    constructor
    · push_cast
      nlinarith [Real.neg_one_le_sin x, SC_pos_real]
    · push_cast
      nlinarith [Real.sin_le_one x, SC_pos_real]

theorem Iv.cosSmall_mem {I : Iv} {x : ℝ} (hx : I.mem x) : I.cosSmall.mem (Real.cos x) := by
  unfold Iv.cosSmall
  split
  case isTrue h =>
    have hu := Iv.inUnit_spec hx h
    have hb := Real.cos_bound hu
    have hpoly : (((Iv.ofInt 1).sub ((I.mul I).divP 2))).mem ((1 : ℝ) - x * x / 2) := by
      have h1 : ((1 : ℤ) : ℝ) = (1 : ℝ) := by norm_num
      exact h1 ▸ Iv.sub_mem (Iv.ofInt_mem 1) (Iv.divP_mem (by norm_num) (Iv.mul_mem hx hx))
    refine Iv.widen_mem hpoly ?_
    have e : x ^ 2 = x * x := by ring
    rw [← e]
    have h2 := Iv.rem4_spec hx
    have hSC := SC_pos_real
    nlinarith
  case isFalse h =>
    constructor
    · push_cast
      nlinarith [Real.neg_one_le_cos x, SC_pos_real]
    · push_cast
      nlinarith [Real.cos_le_one x, SC_pos_real]

theorem Iv.sinCos_mem {I : Iv} {x : ℝ} (k : ℕ) (hx : I.mem x) :
    (I.sinCos k).1.mem (Real.sin x) ∧ (I.sinCos k).2.mem (Real.cos x) := by
  induction k generalizing I x with
  | zero => exact ⟨Iv.sinSmall_mem hx, Iv.cosSmall_mem hx⟩
  | succ k ih =>
    obtain ⟨hs, hc⟩ := ih (Iv.half_mem hx)
    constructor
    · have h1 : Real.sin x = 2 * (Real.sin (x / 2) * Real.cos (x / 2)) := by
        have := Real.sin_two_mul (x / 2)
        rw [show 2 * (x / 2) = x by ring] at this
        rw [this]; ring
      rw [h1]
      exact Iv.double_mem (Iv.mul_mem hs hc)
    · have h1 : Real.cos x = 2 * (Real.cos (x / 2) * Real.cos (x / 2)) - 1 := by
        have := Real.cos_two_mul (x / 2)
        rw [show 2 * (x / 2) = x by ring] at this
        rw [this]; ring
      rw [h1]
      have : ((1 : ℤ) : ℝ) = (1 : ℝ) := by norm_num
      exact this ▸ Iv.sub_mem (Iv.double_mem (Iv.mul_mem hc hc)) (Iv.ofInt_mem 1)

theorem pi_gt_lo : (1570796326794887 : ℝ) / 500000000000000 < Real.pi := by
  apply Real.pi_lower_bound_start 22
  apply Real.sqrtTwoAddSeries_step_up 141421356237309504880168872421 100000000000000000000000000000
  apply Real.sqrtTwoAddSeries_step_up 923879532511286756128183189397 500000000000000000000000000000
  apply Real.sqrtTwoAddSeries_step_up 1961570560806460898252364472269 1000000000000000000000000000000
  apply Real.sqrtTwoAddSeries_step_up 99518472667219688624483695311 50000000000000000000000000000
  apply Real.sqrtTwoAddSeries_step_up 1997590912410344785429543209519 1000000000000000000000000000000
  apply Real.sqrtTwoAddSeries_step_up 1999397637392408440231531299333 1000000000000000000000000000000
  apply Real.sqrtTwoAddSeries_step_up 1999849403678289081843292982393 1000000000000000000000000000000
  apply Real.sqrtTwoAddSeries_step_up 999981175282601142656990437729 500000000000000000000000000000
  apply Real.sqrtTwoAddSeries_step_up 1999990587619152343023160251401 1000000000000000000000000000000
  apply Real.sqrtTwoAddSeries_step_up 249999705862925477482256427543 125000000000000000000000000000
  apply Real.sqrtTwoAddSeries_step_up 999999705862882219160228217739 500000000000000000000000000000
  apply Real.sqrtTwoAddSeries_step_up 399999970586287140457892592283 200000000000000000000000000000
  apply Real.sqrtTwoAddSeries_step_up 999999981616429293808346915403 500000000000000000000000000000
  apply Real.sqrtTwoAddSeries_step_up 49999999770205365644548596657 25000000000000000000000000000
  apply Real.sqrtTwoAddSeries_step_up 199999999770205365512534661559 100000000000000000000000000000
  apply Real.sqrtTwoAddSeries_step_up 999999999712756706849413972219 500000000000000000000000000000
  apply Real.sqrtTwoAddSeries_step_up 249999999982047294177443773971 125000000000000000000000000000
  apply Real.sqrtTwoAddSeries_step_up 249999999995511823544320656037 125000000000000000000000000000
  apply Real.sqrtTwoAddSeries_step_up 1999999999991023647088621168347 1000000000000000000000000000000
  apply Real.sqrtTwoAddSeries_step_up 124999999999859744485759627069 62500000000000000000000000000
  apply Real.sqrtTwoAddSeries_step_up 199999999999943897794303842959 100000000000000000000000000000
  apply Real.sqrtTwoAddSeries_step_up 24999999999998246806071995031 12500000000000000000000000000
  all_goals norm_num [Real.sqrtTwoAddSeries]

theorem pi_lt_hi : Real.pi < (392699081698729 : ℝ) / 125000000000000 := by
  apply Real.pi_upper_bound_start 22
  apply Real.sqrtTwoAddSeries_step_down 1414213562373095048801688724209 1000000000000000000000000000000
  apply Real.sqrtTwoAddSeries_step_down 1847759065022573512256366378793 1000000000000000000000000000000
  apply Real.sqrtTwoAddSeries_step_down 490392640201615224563091118067 250000000000000000000000000000
  apply Real.sqrtTwoAddSeries_step_down 995184726672196886244836953109 500000000000000000000000000000
  apply Real.sqrtTwoAddSeries_step_down 1997590912410344785429543209517 1000000000000000000000000000000
  apply Real.sqrtTwoAddSeries_step_down 499849409348102110057882824833 250000000000000000000000000000
  apply Real.sqrtTwoAddSeries_step_down 249981175459786135230411622799 125000000000000000000000000000
  apply Real.sqrtTwoAddSeries_step_down 31249411727581285708030951179 15625000000000000000000000000
  apply Real.sqrtTwoAddSeries_step_down 1999990587619152343023160251399 1000000000000000000000000000000
  apply Real.sqrtTwoAddSeries_step_down 999998823451701909929025710171 500000000000000000000000000000
  apply Real.sqrtTwoAddSeries_step_down 1999999411725764438320456435477 1000000000000000000000000000000
  apply Real.sqrtTwoAddSeries_step_down 999999926465717851144731480707 500000000000000000000000000000
  apply Real.sqrtTwoAddSeries_step_down 399999992646571717523338766161 200000000000000000000000000000
  apply Real.sqrtTwoAddSeries_step_down 1999999990808214625781943866279 1000000000000000000000000000000
  apply Real.sqrtTwoAddSeries_step_down 1999999997702053655125346615589 1000000000000000000000000000000
  apply Real.sqrtTwoAddSeries_step_down 1999999999425513413698827944437 1000000000000000000000000000000
  apply Real.sqrtTwoAddSeries_step_down 1999999999856378353419550191767 1000000000000000000000000000000
  apply Real.sqrtTwoAddSeries_step_down 399999999992818917670913049659 200000000000000000000000000000
  apply Real.sqrtTwoAddSeries_step_down 399999999998204729417724233669 200000000000000000000000000000
  apply Real.sqrtTwoAddSeries_step_down 1999999999997755911772154033103 1000000000000000000000000000000
  apply Real.sqrtTwoAddSeries_step_down 1999999999999438977943038429589 1000000000000000000000000000000
  apply Real.sqrtTwoAddSeries_step_down 1999999999999859744485759602479 1000000000000000000000000000000
  all_goals norm_num [Real.sqrtTwoAddSeries]

theorem piIv_mem : piIv.mem Real.pi := by
  have h1 := pi_gt_lo
  have h2 := pi_lt_hi
  have hSC := SC_pos_real
  constructor
  · have e1 : ((piIv.lo : ℤ) : ℝ) = (1570796326794887 : ℝ) / 500000000000000 * SC := by
      norm_num [piIv, SC]
    rw [e1]
    nlinarith
  · have e2 : ((piIv.hi : ℤ) : ℝ) = (392699081698729 : ℝ) / 125000000000000 * SC := by
      norm_num [piIv, SC]
    rw [e2]
    nlinarith

theorem M3.matvec_mul (A B : M3) (v : V3) :
    (A.mul B).matvec v = A.matvec (B.matvec v) := by
  simp only [M3.mul, M3.matvec, M3.transpose, V3.dot, V3.mk.injEq]
  refine ⟨by ring, by ring, by ring⟩

theorem M3.mul_inv_of_det_ne_zero {M : M3} (h : M.det ≠ 0) : M.mul M.inv = M3.id := by
  obtain ⟨⟨a, b, c⟩, ⟨d, e, f⟩, ⟨g, i, j⟩⟩ := M
  simp only [M3.det, V3.dot, V3.cross, M3.transpose, M3.mul, M3.inv, M3.id, V3.smul,
    M3.mk.injEq, V3.mk.injEq] at h ⊢
  refine ⟨⟨?_, ?_, ?_⟩, ⟨?_, ?_, ?_⟩, ?_, ?_, ?_⟩ <;> · field_simp; ring

theorem choosePos_spec {P : Position → Prop} {p : Position}
    (h : choosePos P = some p) : P p := by
  classical
  unfold choosePos at h
  split at h
  case isTrue hex =>
    simp only [Option.some.injEq] at h
    exact h ▸ hex.choose_spec
  case isFalse hne => simp at h

theorem choosePos_none {P : Position → Prop} (h : ∀ p, ¬P p) : choosePos P = none := by
  classical
  unfold choosePos
  rw [dif_neg]
  rintro ⟨p, hp⟩
  exact h p hp

/-! ### Geometric facts: rotations preserve length, the scattering vector is
bounded by the Ewald sphere diameter -/
theorem sind_sq_add_cosd_sq (θ : ℝ) : sind θ ^ 2 + cosd θ ^ 2 = 1 :=
  Real.sin_sq_add_cos_sq (rad θ)

theorem transpose_mul (A B : M3) : (A.mul B).transpose = B.transpose.mul A.transpose := by
  obtain ⟨⟨_,_,_⟩,⟨_,_,_⟩,⟨_,_,_⟩⟩ := A
  obtain ⟨⟨_,_,_⟩,⟨_,_,_⟩,⟨_,_,_⟩⟩ := B
  simp only [M3.mul, M3.transpose, V3.dot, M3.mk.injEq, V3.mk.injEq]
  refine ⟨⟨?_,?_,?_⟩,⟨?_,?_,?_⟩,?_,?_,?_⟩ <;> ring

theorem id_matvec (v : V3) : M3.id.matvec v = v := by
  obtain ⟨_,_,_⟩ := v
  simp only [M3.id, M3.matvec, V3.dot, V3.mk.injEq]
  refine ⟨by ring, by ring, by ring⟩

theorem rotZ_transpose_matvec_normSq (θ : ℝ) (v : V3) :
    ((rotZ θ).transpose.matvec v).normSq = v.normSq := by
  simp only [rotZ, M3.transpose, M3.matvec, V3.dot, V3.normSq]
  linear_combination (v.x ^ 2 + v.y ^ 2) * sind_sq_add_cosd_sq θ

theorem rotMY_transpose_matvec_normSq (θ : ℝ) (v : V3) :
    ((rotMY θ).transpose.matvec v).normSq = v.normSq := by
  simp only [rotMY, M3.transpose, M3.matvec, V3.dot, V3.normSq]
  linear_combination (v.x ^ 2 + v.z ^ 2) * sind_sq_add_cosd_sq θ

theorem rotX_transpose_matvec_normSq (θ : ℝ) (v : V3) :
    ((rotX θ).transpose.matvec v).normSq = v.normSq := by
  simp only [rotX, M3.transpose, M3.matvec, V3.dot, V3.normSq]
  linear_combination (v.y ^ 2 + v.z ^ 2) * sind_sq_add_cosd_sq θ

/-- The crystal-frame scattering vector has the same length as the
laboratory-frame one. -/
theorem uPhi_normSq (lam : ℝ) (p : Position) :
    (uPhi lam p).normSq = (qLab lam p).normSq := by
  unfold uPhi sampleRot
  rw [transpose_mul, M3.matvec_mul, transpose_mul, M3.matvec_mul, transpose_mul, M3.matvec_mul]
  rw [rotMY_transpose_matvec_normSq, rotX_transpose_matvec_normSq,
    rotMY_transpose_matvec_normSq, rotZ_transpose_matvec_normSq]

/-- The squared length of the scattering vector, `k²(2 - 2cosγ·cosδ)`. -/
theorem qLab_normSq_eq (lam : ℝ) (p : Position) :
    (qLab lam p).normSq = kvec lam ^ 2 * (2 - 2 * (cosd p.gamma * cosd p.delta)) := by
  unfold qLab kfDir
  simp only [M3.mul, M3.matvec, M3.transpose, V3.dot, V3.sub, V3.smul, V3.normSq, rotZ, rotMY]
  linear_combination (kvec lam ^ 2 * cosd p.delta ^ 2) * sind_sq_add_cosd_sq p.gamma +
    kvec lam ^ 2 * sind_sq_add_cosd_sq p.delta

/-- `|k_f - k_i| ≤ 2k`: no scattering vector can leave the Ewald sphere. -/
theorem qLab_normSq_le (lam : ℝ) (p : Position) :
    (qLab lam p).normSq ≤ 4 * kvec lam ^ 2 := by
  rw [qLab_normSq_eq]
  have hg := sind_sq_add_cosd_sq p.gamma
  have hd := sind_sq_add_cosd_sq p.delta
  have h1 : cosd p.gamma ≤ 1 := by nlinarith [sq_nonneg (sind p.gamma)]
  have h2 : -1 ≤ cosd p.gamma := by nlinarith [sq_nonneg (sind p.gamma)]
  have h3 : cosd p.delta ≤ 1 := by nlinarith [sq_nonneg (sind p.delta)]
  have h4 : -1 ≤ cosd p.delta := by nlinarith [sq_nonneg (sind p.delta)]
  have key : (0:ℝ) ≤ 1 + cosd p.gamma * cosd p.delta := by nlinarith
  nlinarith [mul_nonneg key (sq_nonneg (kvec lam))]

/-- If the reciprocal vector of the target is longer than the Ewald-sphere
diameter, no physical position solves the diffraction condition: the candidate
set of `forward` is empty. -/
theorem candidates_empty {e : Engine} {t : Pseudo} (hdet : e.UB.det ≠ 0)
    (hbig : 4 * kvec e.wavelength ^ 2 < (e.UB.matvec ⟨t.h, t.k, t.l⟩).normSq) :
    ∀ p, ¬ candidates e t p := by
  rintro p ⟨hinv, -⟩
  unfold inverse at hinv
  have hv : (⟨t.h, t.k, t.l⟩ : V3) = (e.UB.inv.matvec (uPhi e.wavelength p)) := by
    have h1 := congrArg Pseudo.h hinv
    have h2 := congrArg Pseudo.k hinv
    have h3 := congrArg Pseudo.l hinv
    simp only at h1 h2 h3
    rw [← h1, ← h2, ← h3]
  have hu : e.UB.matvec (⟨t.h, t.k, t.l⟩ : V3) = uPhi e.wavelength p := by
    rw [hv, ← M3.matvec_mul, M3.mul_inv_of_det_ne_zero hdet, id_matvec]
  rw [hu] at hbig
  have := uPhi_normSq e.wavelength p
  have := qLab_normSq_le e.wavelength p
  linarith

theorem choosePos_isSome {P : Position → Prop} (h : ∃ p, P p) :
    choosePos P = some h.choose := by
  classical
  unfold choosePos
  rw [dif_pos h]

/-- `inverse` of the identity UB at the all-zero position is `(0,0,0)`. -/
theorem inverse_id_zero (lam : ℝ) :
    inverse M3.id lam ⟨0, 0, 0, 0, 0, 0⟩ = ⟨0, 0, 0⟩ := by
  simp only [inverse, uPhi, qLab, kfDir, sampleRot, rotZ, rotMY, rotX, cosd, sind, rad,
    M3.mul, M3.matvec, M3.transpose, M3.inv, M3.det, V3.dot, V3.sub, V3.smul, V3.cross, M3.id]
  norm_num [Pseudo.mk.injEq]

/-- The all-zero position is a forward candidate of the fresh engine for the
target `(0,0,0)`. -/
theorem candidates_calce6c_zero :
    candidates CalcE6C ⟨0, 0, 0⟩ ⟨0, 0, 0, 0, 0, 0⟩ := by
  constructor
  · exact inverse_id_zero _
  · simp only [CalcE6C, inLimits, axisOk, AxisConstraint.limits]
    norm_num

/-- C1: for every (h,k,l) that forward can reach without raising, under a fixed
UB, wavelength and constraint set, `inverse(forward(h,k,l))` equals `(h,k,l)`
within 1e-4 (in the ideal model the round trip is exact, hence within any
tolerance). -/
theorem C1_forward_inverse_roundtrip (e : Engine) (t : Pseudo)
    (hreach : ∃ r, (move e t).2 = Except.ok r) :
    ∀ p, (move e t).2 = Except.ok p →
      |((inverseOp (move e t).1 p).2).h - t.h| ≤ 1e-4 ∧
      |((inverseOp (move e t).1 p).2).k - t.k| ≤ 1e-4 ∧
      |((inverseOp (move e t).1 p).2).l - t.l| ≤ 1e-4 := by
  intro p hp
  rcases hc : choosePos (candidates e t) with - | q
  · exfalso
    unfold move at hp
    rw [hc] at hp
    simp at hp
  · unfold move at hp
    rw [hc] at hp
    simp only [Except.ok.injEq] at hp
    obtain ⟨hcand, -⟩ := choosePos_spec hc
    subst hp
    have hinv : (inverseOp (move e t).1 q).2 = t := by
      unfold move
      rw [hc]
      simp only [inverseOp]
      exact hcand
    rw [hinv]
    norm_num

theorem C1_witness :
    (∃ r, (move CalcE6C ⟨0, 0, 0⟩).2 = Except.ok r) ∧
      (∀ p, (move CalcE6C ⟨0, 0, 0⟩).2 = Except.ok p →
        |((inverseOp (move CalcE6C ⟨0, 0, 0⟩).1 p).2).h - (0:ℝ)| ≤ 1e-4 ∧
        |((inverseOp (move CalcE6C ⟨0, 0, 0⟩).1 p).2).k - (0:ℝ)| ≤ 1e-4 ∧
        |((inverseOp (move CalcE6C ⟨0, 0, 0⟩).1 p).2).l - (0:ℝ)| ≤ 1e-4) := by
  have hex : ∃ p, candidates CalcE6C ⟨0, 0, 0⟩ p := ⟨_, candidates_calce6c_zero⟩
  have hsome := choosePos_isSome hex
  have hreach : ∃ r, (move CalcE6C ⟨0, 0, 0⟩).2 = Except.ok r := by
    refine ⟨hex.choose, ?_⟩
    unfold move
    rw [hsome]
  exact ⟨hreach, C1_forward_inverse_roundtrip CalcE6C ⟨0, 0, 0⟩ hreach⟩

/-- C4: whenever forward fails with an UnreachableError, the engine's current
pseudo and physical position equal their pre-call values exactly — no axis is
moved by the failed call. -/
theorem C4_failure_atomicity (e : Engine) (t : Pseudo) (err : UnreachableError)
    (h : (move e t).2 = Except.error err) :
    ((move e t).1).pseudo = e.pseudo ∧ ((move e t).1).physical = e.physical ∧
      (move e t).1 = e := by
  rcases hc : choosePos (candidates e t) with - | q
  · unfold move
    rw [hc]
    exact ⟨rfl, rfl, rfl⟩
  · exfalso
    unfold move at h
    rw [hc] at h
    simp at h

theorem C4_witness :
    (move CalcE6C ⟨0, 0, 9⟩).2 =
        Except.error ⟨CalcE6C.pseudo, CalcE6C.physical⟩ ∧
      ((move CalcE6C ⟨0, 0, 9⟩).1).pseudo = CalcE6C.pseudo ∧
      ((move CalcE6C ⟨0, 0, 9⟩).1).physical = CalcE6C.physical ∧
      (move CalcE6C ⟨0, 0, 9⟩).1 = CalcE6C := by
  have hdet : CalcE6C.UB.det ≠ 0 := by
    simp only [CalcE6C, M3.det, M3.id, V3.cross, V3.dot]
    norm_num
  have hbig : 4 * kvec CalcE6C.wavelength ^ 2 <
      (CalcE6C.UB.matvec ⟨(9:ℝ), 0, 0⟩).normSq ∨ True := Or.inr trivial
  have hbig' : 4 * kvec CalcE6C.wavelength ^ 2 <
      (CalcE6C.UB.matvec ⟨(0:ℝ), 0, 9⟩).normSq := by
    simp only [CalcE6C, M3.matvec, M3.id, V3.dot, V3.normSq, kvec]
    have hpi : Real.pi < 3.15 := by
      have := pi_lt_hi
      nlinarith
    have hpi0 : 0 < Real.pi := Real.pi_pos
    have h154 : (0:ℝ) < 1.54 := by norm_num
    have : 2 * Real.pi / 1.54 < 4.5 := by
      rw [div_lt_iff₀ h154]
      nlinarith
    have hk0 : 0 < 2 * Real.pi / 1.54 := by positivity
    nlinarith
  have hempty := @candidates_empty CalcE6C ⟨0, 0, 9⟩ hdet hbig'
  have hnone := choosePos_none hempty
  have herr : (move CalcE6C ⟨0, 0, 9⟩).2 =
      Except.error ⟨CalcE6C.pseudo, CalcE6C.physical⟩ := by
    unfold move
    rw [hnone]
  exact ⟨herr, C4_failure_atomicity CalcE6C ⟨0, 0, 9⟩ _ herr⟩

/-- C5: while inverted, reading limits returns `(-high, -low)` of the stored
internal pair; writing a pair while inverted stores the converted internal pair
so that reading it back while still inverted returns the written pair; and
toggling the inverted flag twice restores limits, value and fit exactly. -/
theorem C5_inversion_involution (c : AxisConstraint) (p : ℝ × ℝ)
    (hinv : c.inverted = true) :
    c.limits = (-c.ihigh, -c.ilow) ∧
      (c.setLimits p).limits = p ∧
      c.toggleInverted.toggleInverted.limits = c.limits ∧
      c.toggleInverted.toggleInverted.value = c.value ∧
      c.toggleInverted.toggleInverted.fit = c.fit := by
  refine ⟨?_, ?_, ?_, rfl, rfl⟩
  · simp [AxisConstraint.limits, hinv]
  · simp [AxisConstraint.limits, AxisConstraint.setLimits, hinv]
  · simp [AxisConstraint.limits, AxisConstraint.toggleInverted]

theorem C5_witness :
    (⟨-180, 5, 0, true, true⟩ : AxisConstraint).limits = (-5, 180) ∧
      ((⟨-180, 5, 0, true, true⟩ : AxisConstraint).setLimits (-180, 5)).limits = (-180, 5) ∧
      (⟨-180, 5, 0, true, true⟩ : AxisConstraint).toggleInverted.toggleInverted.limits =
        (⟨-180, 5, 0, true, true⟩ : AxisConstraint).limits ∧
      (⟨-180, 5, 0, true, true⟩ : AxisConstraint).toggleInverted.toggleInverted.value =
        (⟨-180, 5, 0, true, true⟩ : AxisConstraint).value ∧
      (⟨-180, 5, 0, true, true⟩ : AxisConstraint).toggleInverted.toggleInverted.fit =
        (⟨-180, 5, 0, true, true⟩ : AxisConstraint).fit := by
  have h := C5_inversion_involution ⟨-180, 5, 0, true, true⟩ (-180, 5) rfl
  obtain ⟨h1, h2, h3, h4, h5⟩ := h
  refine ⟨?_, h2, h3, h4, h5⟩
  rw [h1]
  norm_num

/-- C9: `inverse` is a pure function of UB, wavelength and the given angles —
it checks no constraints and mutates no engine state: the engine after the call
is the engine before it, and the result agrees between any two engines sharing
UB and wavelength (whatever their constraints, mode or positions). -/
theorem C9_inverse_pure (e e' : Engine) (p : Position) (hUB : e.UB = e'.UB)
    (hlam : e.wavelength = e'.wavelength) :
    (inverseOp e p).1 = e ∧ (inverseOp e' p).1 = e' ∧
      (inverseOp e p).2 = (inverseOp e' p).2 := by
  refine ⟨rfl, rfl, ?_⟩
  simp only [inverseOp]
  rw [hUB, hlam]

theorem C9_witness :
    (inverseOp CalcE6C ⟨1, 2, 3, 4, 5, 6⟩).1 = CalcE6C ∧
      (inverseOp { CalcE6C with mode := "lifting_detector_mu" } ⟨1, 2, 3, 4, 5, 6⟩).1 =
        { CalcE6C with mode := "lifting_detector_mu" } ∧
      (inverseOp CalcE6C ⟨1, 2, 3, 4, 5, 6⟩).2 =
        (inverseOp { CalcE6C with mode := "lifting_detector_mu" } ⟨1, 2, 3, 4, 5, 6⟩).2 :=
  C9_inverse_pure _ _ _ rfl rfl

/-- C10: a freshly constructed `CalcE6C` starts in mode `bissector_vertical`
with wavelength 1.54 Å; and an axis constraint's limits, value and fit flag,
once set while not inverted, read back exactly the written values. -/
theorem C10_defaults_and_readback (c : AxisConstraint) (hninv : c.inverted = false)
    (lims : ℝ × ℝ) (v : ℝ) (f : Bool) :
    CalcE6C.mode = "bissector_vertical" ∧ CalcE6C.wavelength = 1.54 ∧
      (((c.setLimits lims).setValue v).setFit f).limits = lims ∧
      (((c.setLimits lims).setValue v).setFit f).value = v ∧
      (((c.setLimits lims).setValue v).setFit f).fit = f := by
  refine ⟨rfl, rfl, ?_, rfl, rfl⟩
  simp [AxisConstraint.limits, AxisConstraint.setLimits, AxisConstraint.setValue,
    AxisConstraint.setFit, hninv]

theorem C10_witness :
    CalcE6C.mode = "bissector_vertical" ∧ CalcE6C.wavelength = 1.54 ∧
      ((((⟨-180, 180, 0, true, false⟩ : AxisConstraint).setLimits (-5, 180)).setValue
          10).setFit false).limits = (-5, 180) ∧
      ((((⟨-180, 180, 0, true, false⟩ : AxisConstraint).setLimits (-5, 180)).setValue
          10).setFit false).value = 10 ∧
      ((((⟨-180, 180, 0, true, false⟩ : AxisConstraint).setLimits (-5, 180)).setValue
          10).setFit false).fit = false :=
  C10_defaults_and_readback ⟨-180, 180, 0, true, false⟩ rfl (-5, 180) 10 false

/-- C6: energy and wavelength are two views of one scalar related by
`E[keV] = hc/λ[Å]` with `hc = A_KEV ≈ 12.398`; the round trip is the identity
for every positive wavelength (hence within floating-point tolerance); the
wavelength 1.61198 Å corresponds to 7.69142297 keV within 1e-6; and eV→keV is
the pure scale factor 1/1000. -/
theorem C6_energy_wavelength (w : ℝ) (hw : 0 < w) :
    wavelengthOf (energyOf w) = w ∧
      (∀ en : ℝ, 0 < en → energyOf (wavelengthOf en) = en) ∧
      |A_KEV - 12.398| ≤ 0.001 ∧
      |energyOf 1.61198 - 7.69142297| < 1e-6 ∧
      eV_to_keV 573 = 0.573 := by
  have hA : A_KEV ≠ 0 := by norm_num [A_KEV]
  refine ⟨?_, ?_, ?_, ?_, ?_⟩
  · unfold wavelengthOf energyOf
    field_simp
  · intro en hen
    unfold wavelengthOf energyOf
    field_simp
  · rw [abs_le]
    constructor <;> norm_num [A_KEV]
  · rw [abs_lt]
    constructor <;> norm_num [energyOf, A_KEV]
  · unfold eV_to_keV
    norm_num

theorem C6_witness :
    wavelengthOf (energyOf 2) = 2 ∧
      (∀ en : ℝ, 0 < en → energyOf (wavelengthOf en) = en) ∧
      |A_KEV - 12.398| ≤ 0.001 ∧
      |energyOf 1.61198 - 7.69142297| < 1e-6 ∧
      eV_to_keV 573 = 0.573 :=
  C6_energy_wavelength 2 (by norm_num)

/-- C8: `reflections_details` returns one snapshot per reflection, in insertion
order, carrying the (h,k,l) triple, the wavelength at which the reflection was
added, the observed position in canonical axis names, and the orientation flag;
producing the snapshots leaves the sample unchanged. -/
theorem C8_reflections_details (s : Sample) (h k l : ℝ) (pos : Position) (lam : ℝ) :
    (s.reflections_details_op).1 = s ∧
      s.reflections_details.length = s.reflections.length ∧
      (∀ i, s.reflections_details.get? i = (s.reflections.get? i).map Reflection.detail) ∧
      ((s.add_reflection h k l pos lam).1).reflections_details =
        s.reflections_details ++
          [⟨⟨h, k, l⟩, lam, pos, 1, decide ((1:ℤ) = 1)⟩] := by
  refine ⟨rfl, ?_, ?_, ?_⟩
  · simp [Sample.reflections_details]
  · intro i
    simp only [Sample.reflections_details, List.get?_map]
    rfl
  · simp [Sample.add_reflection, Sample.reflections_details, Reflection.detail]

theorem IvV3.memV_of_subset_eq {V W : IvV3} {v : V3} (h : V.mem v)
    (hs : V.subset W = true) : W.mem v := by
  obtain ⟨h1, h2, h3⟩ := h
  unfold IvV3.subset at hs
  simp only [Bool.and_eq_true] at hs
  exact ⟨Iv.mem_of_subset_eq h1 hs.1.1, Iv.mem_of_subset_eq h2 hs.1.2,
    Iv.mem_of_subset_eq h3 hs.2⟩

theorem IvM3.memM_of_subset_eq {M N : IvM3} {m : M3} (h : M.mem m)
    (hs : M.subset N = true) : N.mem m := by
  obtain ⟨h1, h2, h3⟩ := h
  unfold IvM3.subset at hs
  simp only [Bool.and_eq_true] at hs
  exact ⟨IvV3.memV_of_subset_eq h1 hs.1.1, IvV3.memV_of_subset_eq h2 hs.1.2,
    IvV3.memV_of_subset_eq h3 hs.2⟩

theorem IvV3.addV_mem {U V : IvV3} {u v : V3} (hu : U.mem u) (hv : V.mem v) :
    (U.add V).mem (u.add v) :=
  ⟨Iv.add_mem hu.1 hv.1, Iv.add_mem hu.2.1 hv.2.1, Iv.add_mem hu.2.2 hv.2.2⟩

theorem IvV3.subV_mem {U V : IvV3} {u v : V3} (hu : U.mem u) (hv : V.mem v) :
    (U.sub V).mem (u.sub v) :=
  ⟨Iv.sub_mem hu.1 hv.1, Iv.sub_mem hu.2.1 hv.2.1, Iv.sub_mem hu.2.2 hv.2.2⟩

theorem IvV3.smul_mem {A : Iv} {V : IvV3} {a : ℝ} {v : V3} (ha : A.mem a) (hv : V.mem v) :
    (IvV3.smul A V).mem (V3.smul a v) :=
  ⟨Iv.mul_mem ha hv.1, Iv.mul_mem ha hv.2.1, Iv.mul_mem ha hv.2.2⟩

theorem IvV3.dot_mem {U V : IvV3} {u v : V3} (hu : U.mem u) (hv : V.mem v) :
    (U.dot V).mem (u.dot v) :=
  Iv.add_mem (Iv.add_mem (Iv.mul_mem hu.1 hv.1) (Iv.mul_mem hu.2.1 hv.2.1))
    (Iv.mul_mem hu.2.2 hv.2.2)

theorem IvV3.cross_mem {U V : IvV3} {u v : V3} (hu : U.mem u) (hv : V.mem v) :
    (U.cross V).mem (u.cross v) :=
  ⟨Iv.sub_mem (Iv.mul_mem hu.2.1 hv.2.2) (Iv.mul_mem hu.2.2 hv.2.1),
   Iv.sub_mem (Iv.mul_mem hu.2.2 hv.1) (Iv.mul_mem hu.1 hv.2.2),
   Iv.sub_mem (Iv.mul_mem hu.1 hv.2.1) (Iv.mul_mem hu.2.1 hv.1)⟩

theorem IvV3.normSq_mem {V : IvV3} {v : V3} (hv : V.mem v) : V.normSq.mem v.normSq :=
  IvV3.dot_mem hv hv

theorem IvM3.matvec_mem {M : IvM3} {V : IvV3} {m : M3} {v : V3} (hm : M.mem m)
    (hv : V.mem v) : (M.matvec V).mem (m.matvec v) :=
  ⟨IvV3.dot_mem hm.1 hv, IvV3.dot_mem hm.2.1 hv, IvV3.dot_mem hm.2.2 hv⟩

theorem IvM3.transpose_mem {M : IvM3} {m : M3} (hm : M.mem m) :
    M.transpose.mem m.transpose :=
  ⟨⟨hm.1.1, hm.2.1.1, hm.2.2.1⟩, ⟨hm.1.2.1, hm.2.1.2.1, hm.2.2.2.1⟩,
   ⟨hm.1.2.2, hm.2.1.2.2, hm.2.2.2.2⟩⟩

theorem IvM3.mulM_mem {A B : IvM3} {a b : M3} (ha : A.mem a) (hb : B.mem b) :
    (A.mul B).mem (a.mul b) := by
  have hbt := IvM3.transpose_mem hb
  exact ⟨⟨IvV3.dot_mem ha.1 hbt.1, IvV3.dot_mem ha.1 hbt.2.1, IvV3.dot_mem ha.1 hbt.2.2⟩,
    ⟨IvV3.dot_mem ha.2.1 hbt.1, IvV3.dot_mem ha.2.1 hbt.2.1, IvV3.dot_mem ha.2.1 hbt.2.2⟩,
    ⟨IvV3.dot_mem ha.2.2 hbt.1, IvV3.dot_mem ha.2.2 hbt.2.1, IvV3.dot_mem ha.2.2 hbt.2.2⟩⟩

theorem IvM3.ofCols_mem {C1 C2 C3 : IvV3} {c1 c2 c3 : V3} (h1 : C1.mem c1)
    (h2 : C2.mem c2) (h3 : C3.mem c3) : (IvM3.ofCols C1 C2 C3).mem (M3.ofCols c1 c2 c3) :=
  ⟨⟨h1.1, h2.1, h3.1⟩, ⟨h1.2.1, h2.2.1, h3.2.1⟩, ⟨h1.2.2, h2.2.2, h3.2.2⟩⟩

theorem IvV3.normC_mem {V : IvV3} {v : V3} (rl rh : ℤ) (hv : V.mem v) :
    (V.normC rl rh).mem v.norm :=
  Iv.sqrtC_mem rl rh (IvV3.normSq_mem hv)

theorem IvV3.unitC_mem {V : IvV3} {v : V3} {rl rh : ℤ} (hv : V.mem v)
    (hpos : 0 < (V.normC rl rh).lo) : (V.unitC rl rh).mem v.unit :=
  IvV3.smul_mem (Iv.recip_mem hpos (IvV3.normC_mem rl rh hv)) hv

theorem triadC_mem {T1 T2 : IvV3} {t1 t2 : V3} {n1l n1h n3l n3h : ℤ}
    (h1 : T1.mem t1) (h2 : T2.mem t2)
    (hp1 : 0 < (T1.normC n1l n1h).lo)
    (hp3 : 0 < ((T1.cross T2).normC n3l n3h).lo) :
    (triadC T1 T2 n1l n1h n3l n3h).mem (triad t1 t2) := by
  have he1 := IvV3.unitC_mem h1 hp1
  have he3 := IvV3.unitC_mem (IvV3.cross_mem h1 h2) hp3
  exact IvM3.ofCols_mem he1 (IvV3.cross_mem he3 he1) he3

theorem Iv.zero_mem : Iv.zero.mem 0 := by
  constructor <;> simp [Iv.zero]

theorem Iv.one_mem : Iv.one.mem 1 := by
  constructor <;> simp [Iv.one]

theorem rotZIv_mem {S C : Iv} {θ : ℝ} (hs : S.mem (sind θ)) (hc : C.mem (cosd θ)) :
    (rotZIv S C).mem (rotZ θ) :=
  ⟨⟨hc, Iv.neg_mem hs, Iv.zero_mem⟩, ⟨hs, hc, Iv.zero_mem⟩,
   ⟨Iv.zero_mem, Iv.zero_mem, Iv.one_mem⟩⟩

theorem rotMYIv_mem {S C : Iv} {θ : ℝ} (hs : S.mem (sind θ)) (hc : C.mem (cosd θ)) :
    (rotMYIv S C).mem (rotMY θ) :=
  ⟨⟨hc, Iv.zero_mem, Iv.neg_mem hs⟩, ⟨Iv.zero_mem, Iv.one_mem, Iv.zero_mem⟩,
   ⟨hs, Iv.zero_mem, hc⟩⟩

theorem rotXIv_mem {S C : Iv} {θ : ℝ} (hs : S.mem (sind θ)) (hc : C.mem (cosd θ)) :
    (rotXIv S C).mem (rotX θ) :=
  ⟨⟨Iv.one_mem, Iv.zero_mem, Iv.zero_mem⟩, ⟨Iv.zero_mem, hc, Iv.neg_mem hs⟩,
   ⟨Iv.zero_mem, hs, hc⟩⟩

theorem uPhiIv_mem {Smu Cmu Som Com Sch Cch Sph Cph Sg Cg Sd Cd KV : Iv}
    {lam : ℝ} {p : Position}
    (h1 : Smu.mem (sind p.mu)) (h2 : Cmu.mem (cosd p.mu))
    (h3 : Som.mem (sind p.omega)) (h4 : Com.mem (cosd p.omega))
    (h5 : Sch.mem (sind p.chi)) (h6 : Cch.mem (cosd p.chi))
    (h7 : Sph.mem (sind p.phi)) (h8 : Cph.mem (cosd p.phi))
    (h9 : Sg.mem (sind p.gamma)) (h10 : Cg.mem (cosd p.gamma))
    (h11 : Sd.mem (sind p.delta)) (h12 : Cd.mem (cosd p.delta))
    (hk : KV.mem (kvec lam)) :
    (uPhiIv Smu Cmu Som Com Sch Cch Sph Cph Sg Cg Sd Cd KV).mem (uPhi lam p) := by
  have he1 : (⟨Iv.one, Iv.zero, Iv.zero⟩ : IvV3).mem ⟨1, 0, 0⟩ :=
    ⟨Iv.one_mem, Iv.zero_mem, Iv.zero_mem⟩
  have hR : (((rotZIv Smu Cmu).mul (rotMYIv Som Com)).mul
      ((rotXIv Sch Cch).mul (rotMYIv Sph Cph))).mem (sampleRot p) :=
    IvM3.mulM_mem (IvM3.mulM_mem (rotZIv_mem h1 h2) (rotMYIv_mem h3 h4))
      (IvM3.mulM_mem (rotXIv_mem h5 h6) (rotMYIv_mem h7 h8))
  have hKF : (((rotZIv Sg Cg).mul (rotMYIv Sd Cd)).matvec
      ⟨Iv.one, Iv.zero, Iv.zero⟩).mem (kfDir p) :=
    IvM3.matvec_mem (IvM3.mulM_mem (rotZIv_mem h9 h10) (rotMYIv_mem h11 h12)) he1
  exact IvM3.matvec_mem (IvM3.transpose_mem hR)
    (IvV3.smul_mem hk (IvV3.subV_mem hKF he1))

theorem BmatIv_mem {Aq Bq Cq CA CB CG SA SB SG : Iv} {lat : Lattice}
    {v1l v1h sgl sgh sbl sbh : ℤ}
    (hA : Aq.mem lat.a) (hB : Bq.mem lat.b) (hC : Cq.mem lat.c)
    (hCA : CA.mem (cosd lat.alpha)) (hCB : CB.mem (cosd lat.beta))
    (hCG : CG.mem (cosd lat.gamma)) (hSA : SA.mem (sind lat.alpha))
    (hSB : SB.mem (sind lat.beta)) (hSG : SG.mem (sind lat.gamma))
    (hvol : 0 < (volIv Aq Bq Cq CA CB CG v1l v1h).lo)
    (hsasb : 0 < (SA.mul SB).lo) (hsasg : 0 < (SA.mul SG).lo) (hc : 0 < Cq.lo) :
    (BmatIv Aq Bq Cq CA CB CG SA SB SG v1l v1h sgl sgh sbl sbh).mem (Bmat lat) := by
  have htau : piIv.double.mem (2 * Real.pi) := Iv.double_mem piIv_mem
  have hrad : ((((Iv.one.sub (CA.mul CA)).sub (CB.mul CB)).sub (CG.mul CG)).add
      ((CA.mul CB).mul CG).double).mem
      (1 - cosd lat.alpha * cosd lat.alpha - cosd lat.beta * cosd lat.beta -
        cosd lat.gamma * cosd lat.gamma +
        2 * (cosd lat.alpha * cosd lat.beta * cosd lat.gamma)) :=
    Iv.add_mem (Iv.sub_mem (Iv.sub_mem (Iv.sub_mem Iv.one_mem (Iv.mul_mem hCA hCA))
        (Iv.mul_mem hCB hCB)) (Iv.mul_mem hCG hCG))
      (Iv.double_mem (Iv.mul_mem (Iv.mul_mem hCA hCB) hCG))
  have hvolm : (volIv Aq Bq Cq CA CB CG v1l v1h).mem
      (lat.a * lat.b * lat.c * Real.sqrt
        (1 - cosd lat.alpha * cosd lat.alpha - cosd lat.beta * cosd lat.beta -
          cosd lat.gamma * cosd lat.gamma +
          2 * (cosd lat.alpha * cosd lat.beta * cosd lat.gamma))) :=
    Iv.mul_mem (Iv.mul_mem (Iv.mul_mem hA hB) hC) (Iv.sqrtC_mem v1l v1h hrad)
  have hastar := Iv.div_mem hvol
    (Iv.mul_mem (Iv.mul_mem (Iv.mul_mem htau hB) hC) hSA) hvolm
  have hbstar := Iv.div_mem hvol
    (Iv.mul_mem (Iv.mul_mem (Iv.mul_mem htau hA) hC) hSB) hvolm
  have hcstar := Iv.div_mem hvol
    (Iv.mul_mem (Iv.mul_mem (Iv.mul_mem htau hA) hB) hSG) hvolm
  have hcosg := Iv.div_mem hsasb (Iv.sub_mem (Iv.mul_mem hCA hCB) hCG)
    (Iv.mul_mem hSA hSB)
  have hcosb := Iv.div_mem hsasg (Iv.sub_mem (Iv.mul_mem hCA hCG) hCB)
    (Iv.mul_mem hSA hSG)
  have hsing := Iv.sqrtC_mem sgl sgh (Iv.sub_mem Iv.one_mem (Iv.mul_mem hcosg hcosg))
  have hsinb := Iv.sqrtC_mem sbl sbh (Iv.sub_mem Iv.one_mem (Iv.mul_mem hcosb hcosb))
  have htauc := Iv.div_mem hc htau hC
  exact ⟨⟨hastar, Iv.mul_mem hbstar hcosg, Iv.mul_mem hcstar hcosb⟩,
    ⟨Iv.zero_mem, Iv.mul_mem hbstar hsing,
      Iv.neg_mem (Iv.mul_mem (Iv.mul_mem hcstar hsinb) hCA)⟩,
    ⟨Iv.zero_mem, Iv.zero_mem, htauc⟩⟩

theorem kvecIv_mem {LAM : Iv} {lam : ℝ} (hpos : 0 < LAM.lo) (hlam : LAM.mem lam) :
    (kvecIv LAM).mem (kvec lam) :=
  Iv.div_mem hpos (Iv.double_mem piIv_mem) hlam

theorem sinCosDegIv_mem (n d : ℤ) (k : ℕ) (hd : 0 < d) :
    (sinCosDegIv n d k).1.mem (sind ((n : ℝ) / d)) ∧
      (sinCosDegIv n d k).2.mem (cosd ((n : ℝ) / d)) := by
  have hd' : (0 : ℝ) < (d : ℝ) := by exact_mod_cast hd
  have hang : ((Iv.ofRat n (180 * d)).mul piIv).mem (rad ((n : ℝ) / d)) := by
    have h1 : (Iv.ofRat n (180 * d)).mem ((n : ℝ) / (180 * d)) := by
      have := @Iv.ofRat_mem n (180 * d) (by positivity)
      convert this using 2
      push_cast
      ring
    have h2 := Iv.mul_mem h1 piIv_mem
    have e : rad ((n : ℝ) / d) = (n : ℝ) / (180 * d) * Real.pi := by
      unfold rad
      rw [div_mul_eq_mul_div, div_div, div_mul_eq_mul_div, mul_comm (d : ℝ) 180]
    rw [e]
    exact h2
  exact (Iv.sinCos_mem k hang)

/-! ### Bridging helpers for concrete computations -/
theorem Iv.mem_congr {I : Iv} {x y : ℝ} (h : I.mem x) (e : y = x) : I.mem y := e ▸ h

theorem ne_zero_of_mem_pos {I : Iv} {x : ℝ} (h : I.mem x) (hpos : 0 < I.lo) : x ≠ 0 := by
  intro hx
  subst hx
  obtain ⟨h1, -⟩ := h
  have : (0 : ℝ) < (I.lo : ℝ) := by exact_mod_cast hpos
  simp only [zero_mul] at h1
  linarith

theorem ne_zero_of_mem_neg {I : Iv} {x : ℝ} (h : I.mem x) (hneg : I.hi < 0) : x ≠ 0 := by
  intro hx
  subst hx
  obtain ⟨-, h2⟩ := h
  have : (I.hi : ℝ) < 0 := by exact_mod_cast hneg
  simp only [zero_mul] at h2
  linarith

theorem IvM3.detIv_mem {M : IvM3} {m : M3} (h : M.mem m) : M.detIv.mem m.det :=
  IvV3.dot_mem h.1 (IvV3.cross_mem h.2.1 h.2.2)

/-- From enclosures of `k` and `n` with `0 ≤ k` and the scaled integer check
`4·K.hi² < N.lo·SC`, conclude `4k² < n`. -/
theorem four_k_sq_lt_of_mem {K N : Iv} {k n : ℝ} (hk : K.mem k) (hn : N.mem n)
    (hk0 : 0 ≤ K.lo) (hint : 4 * (K.hi * K.hi) < N.lo * SC) : 4 * k ^ 2 < n := by
  obtain ⟨hk1, hk2⟩ := hk
  obtain ⟨hn1, -⟩ := hn
  have hSC := SC_pos_real
  have hk0' : (0 : ℝ) ≤ (K.lo : ℝ) := by exact_mod_cast hk0
  have hkSC : 0 ≤ k * SC := le_trans hk0' hk1
  have hsq : (k * SC) * (k * SC) ≤ (K.hi : ℝ) * K.hi := mul_le_mul hk2 hk2 hkSC
    (le_trans hkSC hk2)
  have hint' : 4 * ((K.hi : ℝ) * K.hi) < (N.lo : ℝ) * SC := by exact_mod_cast hint
  have hchain : 4 * ((k * SC) * (k * SC)) < n * SC * SC := by
    calc 4 * ((k * SC) * (k * SC)) ≤ 4 * ((K.hi : ℝ) * K.hi) := by linarith
      _ < (N.lo : ℝ) * SC := hint'
      _ ≤ n * SC * SC := by nlinarith
  by_contra hcon
  push_neg at hcon
  have hSC2 : (0 : ℝ) < (SC : ℝ) * SC := mul_pos hSC hSC
  have hmul : n * (SC * SC) ≤ 4 * k ^ 2 * (SC * SC) :=
    mul_le_mul_of_nonneg_right hcon (le_of_lt hSC2)
  have e : 4 * ((k * SC) * (k * SC)) = 4 * k ^ 2 * (SC * SC) := by ring
  linarith [hchain, hmul, e.symm.le, e.le]

/-- From an enclosure, a two-sided bound `|x - r| ≤ t` checked on the scaled
integer endpoints. -/
theorem abs_sub_le_of_mem {I : Iv} {x : ℝ} (r t : ℝ) (h : I.mem x)
    (h1 : (r - t) * SC ≤ (I.lo : ℝ)) (h2 : (I.hi : ℝ) ≤ (r + t) * SC) :
    |x - r| ≤ t := by
  obtain ⟨ha, hb⟩ := h
  have hSC := SC_pos_real
  rw [abs_le]
  constructor <;> nlinarith

theorem ivS0_mem : ivS0.mem (sind (((0 : ℤ) : ℝ) / ((1 : ℤ) : ℝ))) :=
  Iv.mem_of_subset_eq (sinCosDegIv_mem 0 1 20 (by norm_num)).1 (by decide)

theorem ivC0_mem : ivC0.mem (cosd (((0 : ℤ) : ℝ) / ((1 : ℤ) : ℝ))) :=
  Iv.mem_of_subset_eq (sinCosDegIv_mem 0 1 20 (by norm_num)).2 (by decide)

theorem ivS90_mem : ivS90.mem (sind (((90 : ℤ) : ℝ) / ((1 : ℤ) : ℝ))) :=
  Iv.mem_of_subset_eq (sinCosDegIv_mem 90 1 20 (by norm_num)).1 (by decide)

theorem ivC90_mem : ivC90.mem (cosd (((90 : ℤ) : ℝ) / ((1 : ℤ) : ℝ))) :=
  Iv.mem_of_subset_eq (sinCosDegIv_mem 90 1 20 (by norm_num)).2 (by decide)

theorem ivS120_mem : ivS120.mem (sind (((120 : ℤ) : ℝ) / ((1 : ℤ) : ℝ))) :=
  Iv.mem_of_subset_eq (sinCosDegIv_mem 120 1 20 (by norm_num)).1 (by decide)

theorem ivC120_mem : ivC120.mem (cosd (((120 : ℤ) : ℝ) / ((1 : ℤ) : ℝ))) :=
  Iv.mem_of_subset_eq (sinCosDegIv_mem 120 1 20 (by norm_num)).2 (by decide)

theorem ivSmu330_mem : ivSmu330.mem (sind pos330.mu) := by
  have e : pos330.mu = ((25285 : ℤ) : ℝ) / ((1000 : ℤ) : ℝ) := by norm_num [pos330]
  rw [e]
  exact Iv.mem_of_subset_eq (sinCosDegIv_mem 25285 1000 20 (by norm_num)).1 (by decide)

theorem ivCmu330_mem : ivCmu330.mem (cosd pos330.mu) := by
  have e : pos330.mu = ((25285 : ℤ) : ℝ) / ((1000 : ℤ) : ℝ) := by norm_num [pos330]
  rw [e]
  exact Iv.mem_of_subset_eq (sinCosDegIv_mem 25285 1000 20 (by norm_num)).2 (by decide)

theorem ivSg330_mem : ivSg330.mem (sind pos330.gamma) := by
  have e : pos330.gamma = ((64449 : ℤ) : ℝ) / ((1000 : ℤ) : ℝ) := by norm_num [pos330]
  rw [e]
  exact Iv.mem_of_subset_eq (sinCosDegIv_mem 64449 1000 20 (by norm_num)).1 (by decide)

theorem ivCg330_mem : ivCg330.mem (cosd pos330.gamma) := by
  have e : pos330.gamma = ((64449 : ℤ) : ℝ) / ((1000 : ℤ) : ℝ) := by norm_num [pos330]
  rw [e]
  exact Iv.mem_of_subset_eq (sinCosDegIv_mem 64449 1000 20 (by norm_num)).2 (by decide)

theorem ivSd330_mem : ivSd330.mem (sind pos330.delta) := by
  have e : pos330.delta = ((-871 : ℤ) : ℝ) / ((1000 : ℤ) : ℝ) := by norm_num [pos330]
  rw [e]
  exact Iv.mem_of_subset_eq (sinCosDegIv_mem (-871) 1000 20 (by norm_num)).1 (by decide)

theorem ivCd330_mem : ivCd330.mem (cosd pos330.delta) := by
  have e : pos330.delta = ((-871 : ℤ) : ℝ) / ((1000 : ℤ) : ℝ) := by norm_num [pos330]
  rw [e]
  exact Iv.mem_of_subset_eq (sinCosDegIv_mem (-871) 1000 20 (by norm_num)).2 (by decide)

theorem ivSmu520_mem : ivSmu520.mem (sind pos520.mu) := by
  have e : pos520.mu = ((46816 : ℤ) : ℝ) / ((1000 : ℤ) : ℝ) := by norm_num [pos520]
  rw [e]
  exact Iv.mem_of_subset_eq (sinCosDegIv_mem 46816 1000 20 (by norm_num)).1 (by decide)

theorem ivCmu520_mem : ivCmu520.mem (cosd pos520.mu) := by
  have e : pos520.mu = ((46816 : ℤ) : ℝ) / ((1000 : ℤ) : ℝ) := by norm_num [pos520]
  rw [e]
  exact Iv.mem_of_subset_eq (sinCosDegIv_mem 46816 1000 20 (by norm_num)).2 (by decide)

theorem ivSg520_mem : ivSg520.mem (sind pos520.gamma) := by
  have e : pos520.gamma = ((79712 : ℤ) : ℝ) / ((1000 : ℤ) : ℝ) := by norm_num [pos520]
  rw [e]
  exact Iv.mem_of_subset_eq (sinCosDegIv_mem 79712 1000 20 (by norm_num)).1 (by decide)

theorem ivCg520_mem : ivCg520.mem (cosd pos520.gamma) := by
  have e : pos520.gamma = ((79712 : ℤ) : ℝ) / ((1000 : ℤ) : ℝ) := by norm_num [pos520]
  rw [e]
  exact Iv.mem_of_subset_eq (sinCosDegIv_mem 79712 1000 20 (by norm_num)).2 (by decide)

theorem ivSd520_mem : ivSd520.mem (sind pos520.delta) := by
  have e : pos520.delta = ((-1374 : ℤ) : ℝ) / ((1000 : ℤ) : ℝ) := by norm_num [pos520]
  rw [e]
  exact Iv.mem_of_subset_eq (sinCosDegIv_mem (-1374) 1000 20 (by norm_num)).1 (by decide)

theorem ivCd520_mem : ivCd520.mem (cosd pos520.delta) := by
  have e : pos520.delta = ((-1374 : ℤ) : ℝ) / ((1000 : ℤ) : ℝ) := by norm_num [pos520]
  rw [e]
  exact Iv.mem_of_subset_eq (sinCosDegIv_mem (-1374) 1000 20 (by norm_num)).2 (by decide)

theorem ivSmuK1_mem : ivSmuK1.mem (sind posKCF1.mu) := by
  have e : posKCF1.mu = ((4842718305024724 : ℤ) : ℝ) / ((100000000000000 : ℤ) : ℝ) := by norm_num [posKCF1]
  rw [e]
  exact Iv.mem_of_subset_eq (sinCosDegIv_mem 4842718305024724 100000000000000 20 (by norm_num)).1 (by decide)

theorem ivCmuK1_mem : ivCmuK1.mem (cosd posKCF1.mu) := by
  have e : posKCF1.mu = ((4842718305024724 : ℤ) : ℝ) / ((100000000000000 : ℤ) : ℝ) := by norm_num [posKCF1]
  rw [e]
  exact Iv.mem_of_subset_eq (sinCosDegIv_mem 4842718305024724 100000000000000 20 (by norm_num)).2 (by decide)

theorem ivSmuK2_mem : ivSmuK2.mem (sind posKCF2.mu) := by
  have e : posKCF2.mu = ((13842718305024724 : ℤ) : ℝ) / ((100000000000000 : ℤ) : ℝ) := by norm_num [posKCF2]
  rw [e]
  exact Iv.mem_of_subset_eq (sinCosDegIv_mem 13842718305024724 100000000000000 20 (by norm_num)).1 (by decide)

theorem ivCmuK2_mem : ivCmuK2.mem (cosd posKCF2.mu) := by
  have e : posKCF2.mu = ((13842718305024724 : ℤ) : ℝ) / ((100000000000000 : ℤ) : ℝ) := by norm_num [posKCF2]
  rw [e]
  exact Iv.mem_of_subset_eq (sinCosDegIv_mem 13842718305024724 100000000000000 20 (by norm_num)).2 (by decide)

theorem ivSgK1_mem : ivSgK1.mem (sind posKCF1.gamma) := by
  have e : posKCF1.gamma = ((11565436271083637 : ℤ) : ℝ) / ((100000000000000 : ℤ) : ℝ) := by norm_num [posKCF1]
  rw [e]
  exact Iv.mem_of_subset_eq (sinCosDegIv_mem 11565436271083637 100000000000000 20 (by norm_num)).1 (by decide)

theorem ivCgK1_mem : ivCgK1.mem (cosd posKCF1.gamma) := by
  have e : posKCF1.gamma = ((11565436271083637 : ℤ) : ℝ) / ((100000000000000 : ℤ) : ℝ) := by norm_num [posKCF1]
  rw [e]
  exact Iv.mem_of_subset_eq (sinCosDegIv_mem 11565436271083637 100000000000000 20 (by norm_num)).2 (by decide)

theorem ivSdK1_mem : ivSdK1.mem (sind posKCF1.delta) := by
  have e : posKCF1.delta = ((30000034909999993 : ℤ) : ℝ) / ((10000000000000000 : ℤ) : ℝ) := by norm_num [posKCF1]
  rw [e]
  exact Iv.mem_of_subset_eq (sinCosDegIv_mem 30000034909999993 10000000000000000 20 (by norm_num)).1 (by decide)

theorem ivCdK1_mem : ivCdK1.mem (cosd posKCF1.delta) := by
  have e : posKCF1.delta = ((30000034909999993 : ℤ) : ℝ) / ((10000000000000000 : ℤ) : ℝ) := by norm_num [posKCF1]
  rw [e]
  exact Iv.mem_of_subset_eq (sinCosDegIv_mem 30000034909999993 10000000000000000 20 (by norm_num)).2 (by decide)

theorem ivSgK2_mem : ivSgK2.mem (sind posKCF2.gamma) := by
  have e : posKCF2.gamma = ((11565436271083637 : ℤ) : ℝ) / ((100000000000000 : ℤ) : ℝ) := by norm_num [posKCF2]
  rw [e]
  exact Iv.mem_of_subset_eq (sinCosDegIv_mem 11565436271083637 100000000000000 20 (by norm_num)).1 (by decide)

theorem ivCgK2_mem : ivCgK2.mem (cosd posKCF2.gamma) := by
  have e : posKCF2.gamma = ((11565436271083637 : ℤ) : ℝ) / ((100000000000000 : ℤ) : ℝ) := by norm_num [posKCF2]
  rw [e]
  exact Iv.mem_of_subset_eq (sinCosDegIv_mem 11565436271083637 100000000000000 20 (by norm_num)).2 (by decide)

theorem ivSdK2_mem : ivSdK2.mem (sind posKCF2.delta) := by
  have e : posKCF2.delta = ((30000034909999993 : ℤ) : ℝ) / ((10000000000000000 : ℤ) : ℝ) := by norm_num [posKCF2]
  rw [e]
  exact Iv.mem_of_subset_eq (sinCosDegIv_mem 30000034909999993 10000000000000000 20 (by norm_num)).1 (by decide)

theorem ivCdK2_mem : ivCdK2.mem (cosd posKCF2.delta) := by
  have e : posKCF2.delta = ((30000034909999993 : ℤ) : ℝ) / ((10000000000000000 : ℤ) : ℝ) := by norm_num [posKCF2]
  rw [e]
  exact Iv.mem_of_subset_eq (sinCosDegIv_mem 30000034909999993 10000000000000000 20 (by norm_num)).2 (by decide)

theorem ivB1_mem : ivB1.mem (Bmat lattice1) := by
  have hLa : (Iv.ofRat 9069 1000).mem lattice1.a :=
    Iv.mem_congr (@Iv.ofRat_mem 9069 1000 (by norm_num)) (by norm_num [lattice1])
  have hLb : (Iv.ofRat 9069 1000).mem lattice1.b :=
    Iv.mem_congr (@Iv.ofRat_mem 9069 1000 (by norm_num)) (by norm_num [lattice1])
  have hLc : (Iv.ofRat 10390 1000).mem lattice1.c :=
    Iv.mem_congr (@Iv.ofRat_mem 10390 1000 (by norm_num)) (by norm_num [lattice1])
  have hCA : ivC90.mem (cosd lattice1.alpha) := by
    have e : lattice1.alpha = ((90 : ℤ) : ℝ) / ((1 : ℤ) : ℝ) := by norm_num [lattice1]
    rw [e]
    exact ivC90_mem
  have hCB : ivC90.mem (cosd lattice1.beta) := by
    have e : lattice1.beta = ((90 : ℤ) : ℝ) / ((1 : ℤ) : ℝ) := by norm_num [lattice1]
    rw [e]
    exact ivC90_mem
  have hCG : ivC120.mem (cosd lattice1.gamma) := by
    have e : lattice1.gamma = ((120 : ℤ) : ℝ) / ((1 : ℤ) : ℝ) := by norm_num [lattice1]
    rw [e]
    exact ivC120_mem
  have hSA : ivS90.mem (sind lattice1.alpha) := by
    have e : lattice1.alpha = ((90 : ℤ) : ℝ) / ((1 : ℤ) : ℝ) := by norm_num [lattice1]
    rw [e]
    exact ivS90_mem
  have hSB : ivS90.mem (sind lattice1.beta) := by
    have e : lattice1.beta = ((90 : ℤ) : ℝ) / ((1 : ℤ) : ℝ) := by norm_num [lattice1]
    rw [e]
    exact ivS90_mem
  have hSG : ivS120.mem (sind lattice1.gamma) := by
    have e : lattice1.gamma = ((120 : ℤ) : ℝ) / ((1 : ℤ) : ℝ) := by norm_num [lattice1]
    rw [e]
    exact ivS120_mem
  exact IvM3.memM_of_subset_eq
    (@BmatIv_mem (Iv.ofRat 9069 1000) (Iv.ofRat 9069 1000) (Iv.ofRat 10390 1000)
      ivC90 ivC90 ivC120 ivS90 ivS90 ivS120 lattice1
      8660254037840340589684586496164333139741 8660254037844885781715834618682808655130 8660254037839019350037061382400338042484 8660254037845127333911328744106942691317 9999999999999999999999998164074257885172 10000000000000000000000000243170471406224
      hLa hLb hLc hCA hCB hCG hSA hSB hSG (by decide) (by decide) (by decide)
      (by decide))
    (by decide)

theorem ivBk_mem : ivBk.mem (Bmat latticeKCF) := by
  have hLa : (Iv.ofRat 5857 10000).mem latticeKCF.a :=
    Iv.mem_congr (@Iv.ofRat_mem 5857 10000 (by norm_num)) (by norm_num [latticeKCF])
  have hLb : (Iv.ofRat 5857 10000).mem latticeKCF.b :=
    Iv.mem_congr (@Iv.ofRat_mem 5857 10000 (by norm_num)) (by norm_num [latticeKCF])
  have hLc : (Iv.ofRat 7849 10000).mem latticeKCF.c :=
    Iv.mem_congr (@Iv.ofRat_mem 7849 10000 (by norm_num)) (by norm_num [latticeKCF])
  have hCA : ivC90.mem (cosd latticeKCF.alpha) := by
    have e : latticeKCF.alpha = ((90 : ℤ) : ℝ) / ((1 : ℤ) : ℝ) := by norm_num [latticeKCF]
    rw [e]
    exact ivC90_mem
  have hCB : ivC90.mem (cosd latticeKCF.beta) := by
    have e : latticeKCF.beta = ((90 : ℤ) : ℝ) / ((1 : ℤ) : ℝ) := by norm_num [latticeKCF]
    rw [e]
    exact ivC90_mem
  have hCG : ivC90.mem (cosd latticeKCF.gamma) := by
    have e : latticeKCF.gamma = ((90 : ℤ) : ℝ) / ((1 : ℤ) : ℝ) := by norm_num [latticeKCF]
    rw [e]
    exact ivC90_mem
  have hSA : ivS90.mem (sind latticeKCF.alpha) := by
    have e : latticeKCF.alpha = ((90 : ℤ) : ℝ) / ((1 : ℤ) : ℝ) := by norm_num [latticeKCF]
    rw [e]
    exact ivS90_mem
  have hSB : ivS90.mem (sind latticeKCF.beta) := by
    have e : latticeKCF.beta = ((90 : ℤ) : ℝ) / ((1 : ℤ) : ℝ) := by norm_num [latticeKCF]
    rw [e]
    exact ivS90_mem
  have hSG : ivS90.mem (sind latticeKCF.gamma) := by
    have e : latticeKCF.gamma = ((90 : ℤ) : ℝ) / ((1 : ℤ) : ℝ) := by norm_num [latticeKCF]
    rw [e]
    exact ivS90_mem
  exact IvM3.memM_of_subset_eq
    (@BmatIv_mem (Iv.ofRat 5857 10000) (Iv.ofRat 5857 10000) (Iv.ofRat 7849 10000)
      ivC90 ivC90 ivC90 ivS90 ivS90 ivS90 latticeKCF
      9999999999999999999999998164074257890454 10000000000000000000000000243170471405525 9999999999999999999999999388024752629306 10000000000000000000000000081056823801954 9999999999999999999999999388024752629306 10000000000000000000000000081056823801954
      hLa hLb hLc hCA hCB hCG hSA hSB hSG (by decide) (by decide) (by decide)
      (by decide))
    (by decide)

theorem ivT330_mem : ivT330.mem ((Bmat lattice1).matvec ⟨3, 3, 0⟩) := by
  have h0 : (Iv.ofInt 0).mem ((0 : ℝ)) := Iv.mem_congr (Iv.ofInt_mem 0) (by norm_num)
  have h3 : (Iv.ofInt 3).mem ((3 : ℝ)) := Iv.mem_congr (Iv.ofInt_mem 3) (by norm_num)
  exact IvV3.memV_of_subset_eq
    (@IvM3.matvec_mem ivB1 ⟨Iv.ofInt 3, Iv.ofInt 3, Iv.ofInt 0⟩ (Bmat lattice1)
      ⟨3, 3, 0⟩ ivB1_mem ⟨h3, h3, h0⟩)
    (by decide)

theorem ivT520_mem : ivT520.mem ((Bmat lattice1).matvec ⟨5, 2, 0⟩) := by
  have h0 : (Iv.ofInt 0).mem ((0 : ℝ)) := Iv.mem_congr (Iv.ofInt_mem 0) (by norm_num)
  have h2 : (Iv.ofInt 2).mem ((2 : ℝ)) := Iv.mem_congr (Iv.ofInt_mem 2) (by norm_num)
  have h5 : (Iv.ofInt 5).mem ((5 : ℝ)) := Iv.mem_congr (Iv.ofInt_mem 5) (by norm_num)
  exact IvV3.memV_of_subset_eq
    (@IvM3.matvec_mem ivB1 ⟨Iv.ofInt 5, Iv.ofInt 2, Iv.ofInt 0⟩ (Bmat lattice1)
      ⟨5, 2, 0⟩ ivB1_mem ⟨h5, h2, h0⟩)
    (by decide)

theorem ivTk001_mem : ivTk001.mem ((Bmat latticeKCF).matvec ⟨0, 0, 1⟩) := by
  have h0 : (Iv.ofInt 0).mem ((0 : ℝ)) := Iv.mem_congr (Iv.ofInt_mem 0) (by norm_num)
  have h1 : (Iv.ofInt 1).mem ((1 : ℝ)) := Iv.mem_congr (Iv.ofInt_mem 1) (by norm_num)
  exact IvV3.memV_of_subset_eq
    (@IvM3.matvec_mem ivBk ⟨Iv.ofInt 0, Iv.ofInt 0, Iv.ofInt 1⟩ (Bmat latticeKCF)
      ⟨0, 0, 1⟩ ivBk_mem ⟨h0, h0, h1⟩)
    (by decide)

theorem ivTk110_mem : ivTk110.mem ((Bmat latticeKCF).matvec ⟨1, 1, 0⟩) := by
  have h0 : (Iv.ofInt 0).mem ((0 : ℝ)) := Iv.mem_congr (Iv.ofInt_mem 0) (by norm_num)
  have h1 : (Iv.ofInt 1).mem ((1 : ℝ)) := Iv.mem_congr (Iv.ofInt_mem 1) (by norm_num)
  exact IvV3.memV_of_subset_eq
    (@IvM3.matvec_mem ivBk ⟨Iv.ofInt 1, Iv.ofInt 1, Iv.ofInt 0⟩ (Bmat latticeKCF)
      ⟨1, 1, 0⟩ ivBk_mem ⟨h1, h1, h0⟩)
    (by decide)

theorem ivTc1_mem : ivTc1.mem (triad ((Bmat lattice1).matvec ⟨3, 3, 0⟩) ((Bmat lattice1).matvec ⟨5, 2, 0⟩)) :=
  IvM3.memM_of_subset_eq
    (@triadC_mem ivT330 ivT520 ((Bmat lattice1).matvec ⟨3, 3, 0⟩) ((Bmat lattice1).matvec ⟨5, 2, 0⟩)
      41569204810958460055010839166830024137131 41569204811021614828312686617362179904019 49883028288162139189422482139276462749425 49883028288581671435359149995288674852614
      ivT330_mem ivT520_mem (by decide) (by decide))
    (by decide)

theorem ivTck_mem : ivTck.mem (triad ((Bmat latticeKCF).matvec ⟨0, 0, 1⟩) ((Bmat latticeKCF).matvec ⟨1, 1, 0⟩)) :=
  IvM3.memM_of_subset_eq
    (@triadC_mem ivTk001 ivTk110 ((Bmat latticeKCF).matvec ⟨0, 0, 1⟩) ((Bmat latticeKCF).matvec ⟨1, 1, 0⟩)
      80050774712441686839087780585310117572366 80050774712443164734361074901653414790164 1214465498228357722626017153913431107692153 1214465498228971879617368877781188236819853
      ivTk001_mem ivTk110_mem (by decide) (by decide))
    (by decide)

theorem ivU330_mem : ivU330.mem (uPhi 1.61198 pos330) := by
  have hSo : ivS0.mem (sind pos330.omega) := by
    have e : pos330.omega = ((0 : ℤ) : ℝ) / ((1 : ℤ) : ℝ) := by norm_num [pos330]
    rw [e]
    exact ivS0_mem
  have hCo : ivC0.mem (cosd pos330.omega) := by
    have e : pos330.omega = ((0 : ℤ) : ℝ) / ((1 : ℤ) : ℝ) := by norm_num [pos330]
    rw [e]
    exact ivC0_mem
  have hSc : ivS0.mem (sind pos330.chi) := by
    have e : pos330.chi = ((0 : ℤ) : ℝ) / ((1 : ℤ) : ℝ) := by norm_num [pos330]
    rw [e]
    exact ivS0_mem
  have hCc : ivC0.mem (cosd pos330.chi) := by
    have e : pos330.chi = ((0 : ℤ) : ℝ) / ((1 : ℤ) : ℝ) := by norm_num [pos330]
    rw [e]
    exact ivC0_mem
  have hSp : ivS0.mem (sind pos330.phi) := by
    have e : pos330.phi = ((0 : ℤ) : ℝ) / ((1 : ℤ) : ℝ) := by norm_num [pos330]
    rw [e]
    exact ivS0_mem
  have hCp : ivC0.mem (cosd pos330.phi) := by
    have e : pos330.phi = ((0 : ℤ) : ℝ) / ((1 : ℤ) : ℝ) := by norm_num [pos330]
    rw [e]
    exact ivC0_mem
  have hk : (kvecIv (Iv.ofRat 161198 100000)).mem (kvec 1.61198) :=
    kvecIv_mem (by decide)
      (Iv.mem_congr (@Iv.ofRat_mem 161198 100000 (by norm_num)) (by norm_num))
  exact IvV3.memV_of_subset_eq
    (@uPhiIv_mem ivSmu330 ivCmu330 ivS0 ivC0 ivS0 ivC0 ivS0 ivC0 ivSg330 ivCg330 ivSd330 ivCd330
      (kvecIv (Iv.ofRat 161198 100000)) 1.61198 pos330
      ivSmu330_mem ivCmu330_mem hSo hCo hSc hCc hSp hCp ivSg330_mem ivCg330_mem ivSd330_mem ivCd330_mem hk)
    (by decide)

theorem ivU520_mem : ivU520.mem (uPhi 1.61198 pos520) := by
  have hSo : ivS0.mem (sind pos520.omega) := by
    have e : pos520.omega = ((0 : ℤ) : ℝ) / ((1 : ℤ) : ℝ) := by norm_num [pos520]
    rw [e]
    exact ivS0_mem
  have hCo : ivC0.mem (cosd pos520.omega) := by
    have e : pos520.omega = ((0 : ℤ) : ℝ) / ((1 : ℤ) : ℝ) := by norm_num [pos520]
    rw [e]
    exact ivC0_mem
  have hSc : ivS0.mem (sind pos520.chi) := by
    have e : pos520.chi = ((0 : ℤ) : ℝ) / ((1 : ℤ) : ℝ) := by norm_num [pos520]
    rw [e]
    exact ivS0_mem
  have hCc : ivC0.mem (cosd pos520.chi) := by
    have e : pos520.chi = ((0 : ℤ) : ℝ) / ((1 : ℤ) : ℝ) := by norm_num [pos520]
    rw [e]
    exact ivC0_mem
  have hSp : ivS0.mem (sind pos520.phi) := by
    have e : pos520.phi = ((0 : ℤ) : ℝ) / ((1 : ℤ) : ℝ) := by norm_num [pos520]
    rw [e]
    exact ivS0_mem
  have hCp : ivC0.mem (cosd pos520.phi) := by
    have e : pos520.phi = ((0 : ℤ) : ℝ) / ((1 : ℤ) : ℝ) := by norm_num [pos520]
    rw [e]
    exact ivC0_mem
  have hk : (kvecIv (Iv.ofRat 161198 100000)).mem (kvec 1.61198) :=
    kvecIv_mem (by decide)
      (Iv.mem_congr (@Iv.ofRat_mem 161198 100000 (by norm_num)) (by norm_num))
  exact IvV3.memV_of_subset_eq
    (@uPhiIv_mem ivSmu520 ivCmu520 ivS0 ivC0 ivS0 ivC0 ivS0 ivC0 ivSg520 ivCg520 ivSd520 ivCd520
      (kvecIv (Iv.ofRat 161198 100000)) 1.61198 pos520
      ivSmu520_mem ivCmu520_mem hSo hCo hSc hCc hSp hCp ivSg520_mem ivCg520_mem ivSd520_mem ivCd520_mem hk)
    (by decide)

theorem ivUk1_mem : ivUk1.mem (uPhi 1.54 posKCF1) := by
  have hSo : ivS0.mem (sind posKCF1.omega) := by
    have e : posKCF1.omega = ((0 : ℤ) : ℝ) / ((1 : ℤ) : ℝ) := by norm_num [posKCF1]
    rw [e]
    exact ivS0_mem
  have hCo : ivC0.mem (cosd posKCF1.omega) := by
    have e : posKCF1.omega = ((0 : ℤ) : ℝ) / ((1 : ℤ) : ℝ) := by norm_num [posKCF1]
    rw [e]
    exact ivC0_mem
  have hSc : ivS0.mem (sind posKCF1.chi) := by
    have e : posKCF1.chi = ((0 : ℤ) : ℝ) / ((1 : ℤ) : ℝ) := by norm_num [posKCF1]
    rw [e]
    exact ivS0_mem
  have hCc : ivC0.mem (cosd posKCF1.chi) := by
    have e : posKCF1.chi = ((0 : ℤ) : ℝ) / ((1 : ℤ) : ℝ) := by norm_num [posKCF1]
    rw [e]
    exact ivC0_mem
  have hSp : ivS0.mem (sind posKCF1.phi) := by
    have e : posKCF1.phi = ((0 : ℤ) : ℝ) / ((1 : ℤ) : ℝ) := by norm_num [posKCF1]
    rw [e]
    exact ivS0_mem
  have hCp : ivC0.mem (cosd posKCF1.phi) := by
    have e : posKCF1.phi = ((0 : ℤ) : ℝ) / ((1 : ℤ) : ℝ) := by norm_num [posKCF1]
    rw [e]
    exact ivC0_mem
  have hk : (kvecIv (Iv.ofRat 154 100)).mem (kvec 1.54) :=
    kvecIv_mem (by decide)
      (Iv.mem_congr (@Iv.ofRat_mem 154 100 (by norm_num)) (by norm_num))
  exact IvV3.memV_of_subset_eq
    (@uPhiIv_mem ivSmuK1 ivCmuK1 ivS0 ivC0 ivS0 ivC0 ivS0 ivC0 ivSgK1 ivCgK1 ivSdK1 ivCdK1
      (kvecIv (Iv.ofRat 154 100)) 1.54 posKCF1
      ivSmuK1_mem ivCmuK1_mem hSo hCo hSc hCc hSp hCp ivSgK1_mem ivCgK1_mem ivSdK1_mem ivCdK1_mem hk)
    (by decide)

theorem ivUk2_mem : ivUk2.mem (uPhi 1.54 posKCF2) := by
  have hSo : ivS0.mem (sind posKCF2.omega) := by
    have e : posKCF2.omega = ((0 : ℤ) : ℝ) / ((1 : ℤ) : ℝ) := by norm_num [posKCF2]
    rw [e]
    exact ivS0_mem
  have hCo : ivC0.mem (cosd posKCF2.omega) := by
    have e : posKCF2.omega = ((0 : ℤ) : ℝ) / ((1 : ℤ) : ℝ) := by norm_num [posKCF2]
    rw [e]
    exact ivC0_mem
  have hSc : ivS0.mem (sind posKCF2.chi) := by
    have e : posKCF2.chi = ((0 : ℤ) : ℝ) / ((1 : ℤ) : ℝ) := by norm_num [posKCF2]
    rw [e]
    exact ivS0_mem
  have hCc : ivC0.mem (cosd posKCF2.chi) := by
    have e : posKCF2.chi = ((0 : ℤ) : ℝ) / ((1 : ℤ) : ℝ) := by norm_num [posKCF2]
    rw [e]
    exact ivC0_mem
  have hSp : ivS0.mem (sind posKCF2.phi) := by
    have e : posKCF2.phi = ((0 : ℤ) : ℝ) / ((1 : ℤ) : ℝ) := by norm_num [posKCF2]
    rw [e]
    exact ivS0_mem
  have hCp : ivC0.mem (cosd posKCF2.phi) := by
    have e : posKCF2.phi = ((0 : ℤ) : ℝ) / ((1 : ℤ) : ℝ) := by norm_num [posKCF2]
    rw [e]
    exact ivC0_mem
  have hk : (kvecIv (Iv.ofRat 154 100)).mem (kvec 1.54) :=
    kvecIv_mem (by decide)
      (Iv.mem_congr (@Iv.ofRat_mem 154 100 (by norm_num)) (by norm_num))
  exact IvV3.memV_of_subset_eq
    (@uPhiIv_mem ivSmuK2 ivCmuK2 ivS0 ivC0 ivS0 ivC0 ivS0 ivC0 ivSgK2 ivCgK2 ivSdK2 ivCdK2
      (kvecIv (Iv.ofRat 154 100)) 1.54 posKCF2
      ivSmuK2_mem ivCmuK2_mem hSo hCo hSc hCc hSp hCp ivSgK2_mem ivCgK2_mem ivSdK2_mem ivCdK2_mem hk)
    (by decide)

theorem ivTphi1_mem : ivTphi1.mem (triad (uPhi 1.61198 pos330) (uPhi 1.61198 pos520)) :=
  IvM3.memM_of_subset_eq
    (@triadC_mem ivU330 ivU520 (uPhi 1.61198 pos330) (uPhi 1.61198 pos520)
      41570991877731398183609046449855186468015 41570991877738396542619666832108376429243 49876720725528002556337480920924435250811 49876720725640458124724312081091322172249
      ivU330_mem ivU520_mem (by decide) (by decide))
    (by decide)

theorem ivTphik_mem : ivTphik.mem (triad (uPhi 1.54 posKCF1) (uPhi 1.54 posKCF2)) :=
  IvM3.memM_of_subset_eq
    (@triadC_mem ivUk1 ivUk2 (uPhi 1.54 posKCF1) (uPhi 1.54 posKCF2)
      69055520231192149014865978760881784856541 69055520231246621773301050707779195556947 476866269461657422101717571485388263225702 476866269463233374755793321101285453903736
      ivUk1_mem ivUk2_mem (by decide) (by decide))
    (by decide)

theorem ivUB1_mem : ivUB1.mem (((triad (uPhi 1.61198 pos330) (uPhi 1.61198 pos520)).mul (triad ((Bmat lattice1).matvec ⟨3, 3, 0⟩) ((Bmat lattice1).matvec ⟨5, 2, 0⟩)).transpose).mul (Bmat lattice1)) :=
  IvM3.memM_of_subset_eq
    (IvM3.mulM_mem (IvM3.mulM_mem ivTphi1_mem (IvM3.transpose_mem ivTc1_mem)) ivB1_mem)
    (by decide)

theorem ivUBk_mem : ivUBk.mem (((triad (uPhi 1.54 posKCF1) (uPhi 1.54 posKCF2)).mul (triad ((Bmat latticeKCF).matvec ⟨0, 0, 1⟩) ((Bmat latticeKCF).matvec ⟨1, 1, 0⟩)).transpose).mul (Bmat latticeKCF)) :=
  IvM3.memM_of_subset_eq
    (IvM3.mulM_mem (IvM3.mulM_mem ivTphik_mem (IvM3.transpose_mem ivTck_mem)) ivBk_mem)
    (by decide)

/-- The UB computation succeeds (the two reflections are independent): its
explicit result for a non-degenerate pair of reflections. -/
theorem compute_UB_core_eq (lat : Lattice) (r1 r2 : Reflection)
    (hne : ((Bmat lat).matvec ⟨r1.h, r1.k, r1.l⟩).cross
      ((Bmat lat).matvec ⟨r2.h, r2.k, r2.l⟩) ≠ V3.zero) :
    compute_UB_core lat r1 r2 = some
      (((triad (uPhi r1.wavelength r1.position) (uPhi r2.wavelength r2.position)).mul
        (triad ((Bmat lat).matvec ⟨r1.h, r1.k, r1.l⟩)
          ((Bmat lat).matvec ⟨r2.h, r2.k, r2.l⟩)).transpose).mul (Bmat lat)) := by
  unfold compute_UB_core
  rw [if_neg hne]

theorem cross_sample1_ne :
    ((Bmat lattice1).matvec ⟨3, 3, 0⟩).cross ((Bmat lattice1).matvec ⟨5, 2, 0⟩) ≠
      V3.zero := by
  intro h
  exact ne_zero_of_mem_neg (IvV3.cross_mem ivT330_mem ivT520_mem).2.2 (by decide)
    (congrArg V3.z h)

theorem compute_UB_sample1 : sample1.compute_UB 0 1 = some UB1e :=
  compute_UB_core_eq lattice1 ⟨3, 3, 0, pos330, 1.61198, 1⟩
    ⟨5, 2, 0, pos520, 1.61198, 1⟩ cross_sample1_ne

theorem cross_kcf_ne :
    ((Bmat latticeKCF).matvec ⟨0, 0, 1⟩).cross ((Bmat latticeKCF).matvec ⟨1, 1, 0⟩) ≠
      V3.zero := by
  intro h
  exact ne_zero_of_mem_neg (IvV3.cross_mem ivTk001_mem ivTk110_mem).1 (by decide)
    (congrArg V3.x h)

theorem compute_UB_kcf : kcfSample.compute_UB 0 1 = some UBkcf_e :=
  compute_UB_core_eq latticeKCF ⟨0, 0, 1, posKCF1, 1.54, 1⟩
    ⟨1, 1, 0, posKCF2, 1.54, 1⟩ cross_kcf_ne

theorem UBkcf_det_ne : UBkcf_e.det ≠ 0 :=
  ne_zero_of_mem_pos (IvM3.detIv_mem ivUBk_mem) (by decide)

/-- `(0,0,1.8)` lies outside the Ewald sphere at the KCF wavelength. -/
theorem kcf_18_outside : 4 * kvec (1.3317314715359827 : ℝ) ^ 2 <
    (UBkcf_e.matvec ⟨0, 0, 1.8⟩).normSq := by
  have h18 : (Iv.ofRat 9 5).mem ((1.8 : ℝ)) :=
    Iv.mem_congr (@Iv.ofRat_mem 9 5 (by norm_num)) (by norm_num)
  have h0 : (Iv.ofInt 0).mem ((0 : ℝ)) := Iv.mem_congr (Iv.ofInt_mem 0) (by norm_num)
  have hv : ((ivUBk.matvec ⟨Iv.ofInt 0, Iv.ofInt 0, Iv.ofRat 9 5⟩)).mem
      (UBkcf_e.matvec ⟨0, 0, 1.8⟩) :=
    @IvM3.matvec_mem ivUBk ⟨Iv.ofInt 0, Iv.ofInt 0, Iv.ofRat 9 5⟩ UBkcf_e ⟨0, 0, 1.8⟩
      ivUBk_mem ⟨h0, h0, h18⟩
  have hns := IvV3.normSq_mem hv
  have hkv : (kvecIv (Iv.ofRat 13317314715359827 10000000000000000)).mem
      (kvec (1.3317314715359827 : ℝ)) :=
    kvecIv_mem (by decide)
      (Iv.mem_congr (@Iv.ofRat_mem 13317314715359827 10000000000000000 (by norm_num))
        (by norm_num))
  exact four_k_sq_lt_of_mem hkv hns (by decide) (by decide)

/-- C3: under the KCF setup, `forward((0,0,1.8))` fails with an
UnreachableError that carries the last reachable pseudo-position `(0,0,0)` and
physical position `(0,0,0,0,0,0)`, and the engine does not move. -/
theorem C3_unreachable_kcf :
    kcfSample.compute_UB 0 1 = some tardisKCF.UB ∧
      (move tardisKCF ⟨0, 0, 1.8⟩).2 =
        Except.error ⟨⟨0, 0, 0⟩, ⟨0, 0, 0, 0, 0, 0⟩⟩ ∧
      (move tardisKCF ⟨0, 0, 1.8⟩).1 = tardisKCF := by
  have hbig : 4 * kvec tardisKCF.wavelength ^ 2 <
      (tardisKCF.UB.matvec ⟨(Pseudo.mk 0 0 1.8).h, (Pseudo.mk 0 0 1.8).k,
        (Pseudo.mk 0 0 1.8).l⟩).normSq := kcf_18_outside
  have hempty := @candidates_empty tardisKCF ⟨0, 0, 1.8⟩ UBkcf_det_ne hbig
  have hnone := choosePos_none hempty
  refine ⟨compute_UB_kcf, ?_, ?_⟩ <;> · unfold move; rw [hnone]; try rfl

/-- C7: `compute_UB` is deterministic — identical lattices and reflection lists
give identical UB — and on the hexagonal `sample1` scenario the computed UB
matches the reference matrix entrywise to at least 6 decimal digits. -/
theorem C7_compute_UB_reference (s s' : Sample) (i j : ℕ)
    (hlat : s.lattice = s'.lattice) (hrefl : s.reflections = s'.reflections) :
    s.compute_UB i j = s'.compute_UB i j ∧
      ∃ U, sample1.compute_UB 0 1 = some U ∧
        |U.r1.x - 0.31323551| ≤ 5e-7 ∧ |U.r1.y - (-0.4807593)| ≤ 5e-7 ∧
        |U.r1.z - 0.01113654| ≤ 5e-7 ∧ |U.r2.x - 0.73590724| ≤ 5e-7 ∧
        |U.r2.y - 0.63942704| ≤ 5e-7 ∧ |U.r2.z - 0.01003773| ≤ 5e-7 ∧
        |U.r3.x - (-0.01798898)| ≤ 5e-7 ∧ |U.r3.y - (-0.00176066)| ≤ 5e-7 ∧
        |U.r3.z - 0.60454803| ≤ 5e-7 := by
  constructor
  · simp only [Sample.compute_UB, hlat, hrefl]
  · have hm : ivUB1.mem UB1e := ivUB1_mem
    refine ⟨UB1e, compute_UB_sample1, ?_, ?_, ?_, ?_, ?_, ?_, ?_, ?_, ?_⟩
    · exact abs_sub_le_of_mem 0.31323551 5e-7 hm.1.1 (by norm_num [ivUB1, SC])
        (by norm_num [ivUB1, SC])
    · exact abs_sub_le_of_mem (-0.4807593) 5e-7 hm.1.2.1 (by norm_num [ivUB1, SC])
        (by norm_num [ivUB1, SC])
    · exact abs_sub_le_of_mem 0.01113654 5e-7 hm.1.2.2 (by norm_num [ivUB1, SC])
        (by norm_num [ivUB1, SC])
    · exact abs_sub_le_of_mem 0.73590724 5e-7 hm.2.1.1 (by norm_num [ivUB1, SC])
        (by norm_num [ivUB1, SC])
    · exact abs_sub_le_of_mem 0.63942704 5e-7 hm.2.1.2.1 (by norm_num [ivUB1, SC])
        (by norm_num [ivUB1, SC])
    · exact abs_sub_le_of_mem 0.01003773 5e-7 hm.2.1.2.2 (by norm_num [ivUB1, SC])
        (by norm_num [ivUB1, SC])
    · exact abs_sub_le_of_mem (-0.01798898) 5e-7 hm.2.2.1 (by norm_num [ivUB1, SC])
        (by norm_num [ivUB1, SC])
    · exact abs_sub_le_of_mem (-0.00176066) 5e-7 hm.2.2.2.1 (by norm_num [ivUB1, SC])
        (by norm_num [ivUB1, SC])
    · exact abs_sub_le_of_mem 0.60454803 5e-7 hm.2.2.2.2 (by norm_num [ivUB1, SC])
        (by norm_num [ivUB1, SC])

theorem C7_witness :
    sample1.compute_UB 0 1 = sample1.compute_UB 0 1 ∧
      ∃ U, sample1.compute_UB 0 1 = some U ∧
        |U.r1.x - 0.31323551| ≤ 5e-7 ∧ |U.r1.y - (-0.4807593)| ≤ 5e-7 ∧
        |U.r1.z - 0.01113654| ≤ 5e-7 ∧ |U.r2.x - 0.73590724| ≤ 5e-7 ∧
        |U.r2.y - 0.63942704| ≤ 5e-7 ∧ |U.r2.z - 0.01003773| ≤ 5e-7 ∧
        |U.r3.x - (-0.01798898)| ≤ 5e-7 ∧ |U.r3.y - (-0.00176066)| ≤ 5e-7 ∧
        |U.r3.z - 0.60454803| ≤ 5e-7 :=
  C7_compute_UB_reference sample1 sample1 0 1 rfl rfl

end Hklpy
